import Mathlib

/-!
# Verification of the rivoox_one_backend elective / submission-completion core

Shallow embedding of the elective-eligibility, selection-state, and
submission-completion logic of the backend.  Identifiers (UUID strings in the
database) are modelled as `Nat`; status / type / name columns stay `String`.
Each definition is translated from the Express route that implements it; the
route and file are named in the doc comment.
-/

namespace Rivoox

/-- A row of `student_submissions` as selected by the aggregation routes
(`student_id, subject_id, submission_type_id, status`). -/
structure Submission where
  student_id : Nat
  subject_id : Nat
  submission_type_id : Nat
  status : String
  deriving DecidableEq, Repr

/-- A row of `subjects` as selected in `GET /students` (class-teacher list):
`id, type`. -/
structure SubjectRow where
  id : Nat
  type : String
  deriving DecidableEq, Repr

/-- JS `Math.round((count / total) * 100)` for nonnegative integers with
`total > 0`: `Math.round x = ⌊x + 1/2⌋`, and
`⌊100*count/total + 1/2⌋ = (200*count + total) / (2*total)` in integer
division. -/
def mathRoundPct (count total : Nat) : Nat :=
  (200 * count + total) / (2 * total)

/-- JS truthiness of `sub && sub.status === 'completed'` for the result of an
`Array.prototype.find` call. -/
def foundCompleted : Option Submission → Bool
  | some sub => sub.status == "completed"
  | none => false

/-- Per-(student, subject) completeness rule of the class-teacher
`GET /students` route (`src/unnamed/part_001`, lines 117–141):
practical subjects need a completed TA submission; every other type needs a
completed TA and a completed CIE submission.  `subjectSubmissions` is the
student's submissions already filtered to this subject. -/
def isSubjectComplete (subjectType : String) (taTypeId cieTypeId : Nat)
    (subjectSubmissions : List Submission) : Bool :=
  if subjectType == "practical" then
    foundCompleted (subjectSubmissions.find? fun sub => sub.submission_type_id == taTypeId)
  else
    foundCompleted (subjectSubmissions.find? fun sub => sub.submission_type_id == taTypeId) &&
    foundCompleted (subjectSubmissions.find? fun sub => sub.submission_type_id == cieTypeId)

/-- The `completedSubjects` counter of the same loop: number of the class's
subjects the student has completed. -/
def completedSubjects (subjects : List SubjectRow) (taTypeId cieTypeId : Nat)
    (studentSubmissions : List Submission) : Nat :=
  (subjects.filter fun subject =>
    isSubjectComplete subject.type taTypeId cieTypeId
      (studentSubmissions.filter fun sub => sub.subject_id == subject.id)).length

/-- `submission_percentage` of the class-teacher `GET /students` route
(`src/unnamed/part_001`, lines 102–143): `0` when the class has no subjects,
otherwise `Math.round((completedSubjects / totalSubjects) * 100)` where
`totalSubjects = subjects.length`. -/
def studentSubmissionPercentage (subjects : List SubjectRow) (taTypeId cieTypeId : Nat)
    (studentSubmissions : List Submission) : Nat :=
  let totalSubjects := subjects.length
  if totalSubjects == 0 then 0
  else mathRoundPct (completedSubjects subjects taTypeId cieTypeId studentSubmissions) totalSubjects

/-- The `find`-based completion check agrees with plain existence of a
completed row of the given type, provided all rows of that type in the list
carry the same status (the table upserts one row per
(student, subject, type)). -/
theorem foundCompleted_find?_iff (l : List Submission) (tid : Nat)
    (hU : ∀ s1 ∈ l, ∀ s2 ∈ l, s1.submission_type_id = tid → s2.submission_type_id = tid →
      s1.status = s2.status) :
    foundCompleted (l.find? fun sub => sub.submission_type_id == tid) = true ↔
      ∃ s ∈ l, s.submission_type_id = tid ∧ s.status = "completed" := by
  induction l with
  | nil => simp [foundCompleted]
  | cons a t ih =>
    by_cases ha : a.submission_type_id = tid
    · rw [List.find?_cons_of_pos _ (by simpa using ha)]
      simp only [foundCompleted, beq_iff_eq]
      constructor
      · intro h
        exact ⟨a, List.mem_cons_self a t, ha, h⟩
      · rintro ⟨s, hs, hst, hsc⟩
        have := hU s hs a (List.mem_cons_self a t) hst ha
        rw [← this]
        exact hsc
    · rw [List.find?_cons_of_neg _ (by simpa using ha)]
      rw [ih (fun s1 h1 s2 h2 => hU s1 (List.mem_cons_of_mem a h1) s2 (List.mem_cons_of_mem a h2))]
      constructor
      · rintro ⟨s, hs, hst, hsc⟩
        exact ⟨s, List.mem_cons_of_mem a hs, hst, hsc⟩
      · rintro ⟨s, hs, hst, hsc⟩
        rcases List.mem_cons.mp hs with rfl | hs
        · exact absurd hst ha
        · exact ⟨s, hs, hst, hsc⟩

/-- C1: in the per-student completion computation, a subject of type
"practical" counts as complete iff a TA submission with status "completed"
exists for it (CIE rows are irrelevant: the characterization mentions only
TA rows); every other subject type counts as complete iff both a TA row and
a CIE row with status "completed" exist.  Rows of one submission type are
assumed to agree on status, matching the table's one-row-per-
(student, subject, type) upsert semantics. -/
theorem subject_completion_practical_vs_other (subjectType : String)
    (taTypeId cieTypeId : Nat) (subs : List Submission)
    (hU : ∀ s1 ∈ subs, ∀ s2 ∈ subs,
      s1.submission_type_id = s2.submission_type_id → s1.status = s2.status) :
    (subjectType = "practical" →
      (isSubjectComplete subjectType taTypeId cieTypeId subs = true ↔
        ∃ s ∈ subs, s.submission_type_id = taTypeId ∧ s.status = "completed")) ∧
    (subjectType ≠ "practical" →
      (isSubjectComplete subjectType taTypeId cieTypeId subs = true ↔
        (∃ s ∈ subs, s.submission_type_id = taTypeId ∧ s.status = "completed") ∧
        (∃ s ∈ subs, s.submission_type_id = cieTypeId ∧ s.status = "completed"))) := by
  have hta := foundCompleted_find?_iff subs taTypeId
    (fun s1 h1 s2 h2 e1 e2 => hU s1 h1 s2 h2 (e1.trans e2.symm))
  have hcie := foundCompleted_find?_iff subs cieTypeId
    (fun s1 h1 s2 h2 e1 e2 => hU s1 h1 s2 h2 (e1.trans e2.symm))
  constructor
  · intro hp
    rw [isSubjectComplete, if_pos (by simpa using hp)]
    exact hta
  · intro hp
    rw [isSubjectComplete, if_neg (by simpa using hp), Bool.and_eq_true, hta, hcie]

/-- Witness for `subject_completion_practical_vs_other` on a concrete
practical subject with one completed TA row and one pending CIE row. -/
theorem subject_completion_practical_vs_other_witness :
    isSubjectComplete "practical" 10 11
      [⟨1, 4, 10, "completed"⟩, ⟨1, 4, 11, "pending"⟩] = true :=
  ((subject_completion_practical_vs_other "practical" 10 11
      [⟨1, 4, 10, "completed"⟩, ⟨1, 4, 11, "pending"⟩] (by decide)).1 rfl).mpr
    ⟨⟨1, 4, 10, "completed"⟩, by decide, rfl, rfl⟩

/-! ## Student dashboard (`GET /dashboard`, `src/api/routes/students.js`) -/

/-- A row of `submission_types` (`id, name`). -/
structure SubmissionTypeRow where
  id : Nat
  name : String
  deriving DecidableEq, Repr

/-- The dashboard's `typeMap.get`: the map is built by `forEach`/`set`, so for
duplicate ids the last row wins. -/
def typeMapGet (types : List SubmissionTypeRow) (tid : Nat) : Option String :=
  (types.reverse.find? fun t => t.id == tid).map (·.name)

/-- The per-subject `submissionMap` of the dashboard route, initialized to
`{CIE: 'pending', TA: 'pending', 'Defaulter work': 'pending'}`. -/
structure SubmissionMap where
  cie : String
  ta : String
  defaulterWork : String
  deriving DecidableEq, Repr

/-- One step of `subjectSubmissions.forEach`: `submissionMap[typeName] =
sub.status` (writes under any other type name create keys the route never
reads back, so they are dropped here). -/
def applySubmission (types : List SubmissionTypeRow) (m : SubmissionMap)
    (sub : Submission) : SubmissionMap :=
  match typeMapGet types sub.submission_type_id with
  | some "CIE" => { m with cie := sub.status }
  | some "TA" => { m with ta := sub.status }
  | some "Defaulter work" => { m with defaulterWork := sub.status }
  | _ => m

/-- The finished `submissionMap` for one subject: fold of `applySubmission`
over the student's submissions for that subject. -/
def buildSubmissionMap (types : List SubmissionTypeRow)
    (subjectSubmissions : List Submission) : SubmissionMap :=
  subjectSubmissions.foldl (applySubmission types) ⟨"pending", "pending", "pending"⟩

/-- `subjectsWithSubmissions` of the dashboard route, reduced to the
per-subject maps (the id/code/name/availability decoration plays no part in
the percentage). -/
def subjectMaps (types : List SubmissionTypeRow) (subjectIds : List Nat)
    (submissions : List Submission) : List SubmissionMap :=
  subjectIds.map fun sid =>
    buildSubmissionMap types (submissions.filter fun s => s.subject_id == sid)

/-- The `completedSubmissions` reducer of the dashboard route: per subject one
point for completed CIE, one for completed TA, and (defaulters only) one for
completed "Defaulter work". -/
def dashCompletedSubmissions (isDefaulter : Bool) (maps : List SubmissionMap) : Nat :=
  maps.foldl (fun count subject =>
    count + (if subject.cie == "completed" then 1 else 0)
          + (if subject.ta == "completed" then 1 else 0)
          + (if isDefaulter && subject.defaulterWork == "completed" then 1 else 0)) 0

/-- `submissionPercentage` of the dashboard route (`src/api/routes/students.js`,
lines 254–272): denominator `subjects × (3 if defaulter else 2)`, numerator
`dashCompletedSubmissions`; `0` when the denominator is `0`. -/
def dashboardSubmissionPercentage (isDefaulter : Bool)
    (types : List SubmissionTypeRow) (subjectIds : List Nat)
    (submissions : List Submission) : Nat :=
  let maps := subjectMaps types subjectIds submissions
  let submissionsPerSubject := if isDefaulter then 3 else 2
  let totalSubmissions := maps.length * submissionsPerSubject
  if totalSubmissions > 0 then
    mathRoundPct (dashCompletedSubmissions isDefaulter maps) totalSubmissions
  else 0

/-- A completed submission row of the given type exists for the given
subject. -/
def hasCompletedRow (submissions : List Submission) (sid tid : Nat) : Bool :=
  submissions.any fun s =>
    s.subject_id == sid && s.submission_type_id == tid && s.status == "completed"

/-- The numerator the spec describes for the dashboard: per subject one point
for a completed TA row and one for a completed CIE row, plus one for a
completed "Defaulter work" row when the student is a defaulter. -/
def claimedCompletedCount (isDefaulter : Bool) (taId cieId dwId : Nat)
    (subjectIds : List Nat) (submissions : List Submission) : Nat :=
  (subjectIds.map fun sid =>
    (if hasCompletedRow submissions sid cieId then 1 else 0) +
    (if hasCompletedRow submissions sid taId then 1 else 0) +
    (if isDefaulter && hasCompletedRow submissions sid dwId then 1 else 0)).sum

/-- `typeMapGet` on the fixed three-type vocabulary with distinct ids. -/
theorem typeMapGet_three (taId cieId dwId : Nat) (h1 : taId ≠ cieId)
    (h2 : taId ≠ dwId) (h3 : cieId ≠ dwId) (tid : Nat) :
    typeMapGet [⟨taId, "TA"⟩, ⟨cieId, "CIE"⟩, ⟨dwId, "Defaulter work"⟩] tid =
      if tid = taId then some "TA"
      else if tid = cieId then some "CIE"
      else if tid = dwId then some "Defaulter work"
      else none := by
  have h1' : cieId ≠ taId := fun e => h1 e.symm
  have h2' : dwId ≠ taId := fun e => h2 e.symm
  have h3' : dwId ≠ cieId := fun e => h3 e.symm
  unfold typeMapGet
  have hrev : ([⟨taId, "TA"⟩, ⟨cieId, "CIE"⟩, ⟨dwId, "Defaulter work"⟩] :
      List SubmissionTypeRow).reverse =
      [⟨dwId, "Defaulter work"⟩, ⟨cieId, "CIE"⟩, ⟨taId, "TA"⟩] := rfl
  rw [hrev]
  rcases eq_or_ne tid dwId with rfl | hdw
  · rw [List.find?_cons_of_pos _ (by simp)]
    simp [h2', h3']
  · rw [List.find?_cons_of_neg _ (by simpa using Ne.symm hdw)]
    rcases eq_or_ne tid cieId with rfl | hcie
    · rw [List.find?_cons_of_pos _ (by simp)]
      simp [h1']
    · rw [List.find?_cons_of_neg _ (by simpa using Ne.symm hcie)]
      rcases eq_or_ne tid taId with rfl | hta
      · rw [List.find?_cons_of_pos _ (by simp)]
        simp [hcie, hdw]
      · rw [List.find?_cons_of_neg _ (by simpa using Ne.symm hta)]
        simp [hta, hcie, hdw]

/-- `applySubmission` writes the `ta` field exactly when the row's type maps
to "TA". -/
theorem applySubmission_ta (types : List SubmissionTypeRow) (m : SubmissionMap)
    (s : Submission) :
    (applySubmission types m s).ta =
      if typeMapGet types s.submission_type_id = some "TA" then s.status else m.ta := by
  unfold applySubmission
  rcases h : typeMapGet types s.submission_type_id with _ | name
  · simp [h]
  · by_cases h1 : name = "CIE" <;> by_cases h2 : name = "TA" <;>
      by_cases h3 : name = "Defaulter work" <;> simp_all

/-- `applySubmission` writes the `cie` field exactly when the row's type maps
to "CIE". -/
theorem applySubmission_cie (types : List SubmissionTypeRow) (m : SubmissionMap)
    (s : Submission) :
    (applySubmission types m s).cie =
      if typeMapGet types s.submission_type_id = some "CIE" then s.status else m.cie := by
  unfold applySubmission
  rcases h : typeMapGet types s.submission_type_id with _ | name
  · simp [h]
  · by_cases h1 : name = "CIE" <;> by_cases h2 : name = "TA" <;>
      by_cases h3 : name = "Defaulter work" <;> simp_all

/-- `applySubmission` writes the `defaulterWork` field exactly when the row's
type maps to "Defaulter work". -/
theorem applySubmission_dw (types : List SubmissionTypeRow) (m : SubmissionMap)
    (s : Submission) :
    (applySubmission types m s).defaulterWork =
      if typeMapGet types s.submission_type_id = some "Defaulter work" then s.status
      else m.defaulterWork := by
  unfold applySubmission
  rcases h : typeMapGet types s.submission_type_id with _ | name
  · simp [h]
  · by_cases h1 : name = "CIE" <;> by_cases h2 : name = "TA" <;>
      by_cases h3 : name = "Defaulter work" <;> simp_all

/-- Last-write-wins fold characterization: a field of the finished
`submissionMap` reads "completed" iff a completed row mapping to that type
name exists, or no such row exists and the initial value already reads
"completed" — provided all rows mapping to the name agree on status. -/
theorem foldl_applySubmission_field (types : List SubmissionTypeRow) (n : String)
    (p : SubmissionMap → String)
    (hp : ∀ m s, p (applySubmission types m s) =
      if typeMapGet types s.submission_type_id = some n then s.status else p m)
    (l : List Submission)
    (hS : ∀ s1 ∈ l, ∀ s2 ∈ l, typeMapGet types s1.submission_type_id = some n →
      typeMapGet types s2.submission_type_id = some n → s1.status = s2.status) :
    ∀ init, p (l.foldl (applySubmission types) init) = "completed" ↔
      ((∃ s ∈ l, typeMapGet types s.submission_type_id = some n ∧ s.status = "completed") ∨
       ((∀ s ∈ l, ¬ typeMapGet types s.submission_type_id = some n) ∧ p init = "completed")) := by
  induction l with
  | nil => intro init; simp
  | cons a t ih =>
    intro init
    have hS' : ∀ s1 ∈ t, ∀ s2 ∈ t, typeMapGet types s1.submission_type_id = some n →
        typeMapGet types s2.submission_type_id = some n → s1.status = s2.status :=
      fun s1 h1 s2 h2 => hS s1 (List.mem_cons_of_mem a h1) s2 (List.mem_cons_of_mem a h2)
    rw [List.foldl_cons, ih hS' (applySubmission types init a)]
    by_cases hA : typeMapGet types a.submission_type_id = some n
    · have hinit : p (applySubmission types init a) = a.status := by rw [hp, if_pos hA]
      rw [hinit]
      constructor
      · rintro (⟨s, hs, hT, hc⟩ | ⟨hn, hc⟩)
        · exact Or.inl ⟨s, List.mem_cons_of_mem a hs, hT, hc⟩
        · exact Or.inl ⟨a, List.mem_cons_self a t, hA, hc⟩
      · rintro (⟨s, hs, hT, hc⟩ | ⟨hn, _⟩)
        · rcases List.mem_cons.mp hs with rfl | hs
          · by_cases hT' : ∃ s' ∈ t, typeMapGet types s'.submission_type_id = some n
            · rcases hT' with ⟨s', hs', hTs'⟩
              refine Or.inl ⟨s', hs', hTs', ?_⟩
              rw [hS s' (List.mem_cons_of_mem _ hs') s (List.mem_cons_self _ _) hTs' hT]
              exact hc
            · push_neg at hT'
              exact Or.inr ⟨hT', hc⟩
          · exact Or.inl ⟨s, hs, hT, hc⟩
        · exact absurd hA (hn a (List.mem_cons_self a t))
    · have hinit : p (applySubmission types init a) = p init := by rw [hp, if_neg hA]
      rw [hinit]
      constructor
      · rintro (⟨s, hs, hT, hc⟩ | ⟨hn, hc⟩)
        · exact Or.inl ⟨s, List.mem_cons_of_mem a hs, hT, hc⟩
        · refine Or.inr ⟨?_, hc⟩
          intro s hs
          rcases List.mem_cons.mp hs with rfl | hs
          · exact hA
          · exact hn s hs
      · rintro (⟨s, hs, hT, hc⟩ | ⟨hn, hc⟩)
        · rcases List.mem_cons.mp hs with rfl | hs
          · exact absurd hT hA
          · exact Or.inl ⟨s, hs, hT, hc⟩
        · exact Or.inr ⟨fun s hs => hn s (List.mem_cons_of_mem a hs), hc⟩

/-- On the fixed three-type vocabulary, mapping to "TA" pins the id. -/
theorem typeMapGet_ta_iff (taId cieId dwId : Nat) (h1 : taId ≠ cieId)
    (h2 : taId ≠ dwId) (h3 : cieId ≠ dwId) (tid : Nat) :
    typeMapGet [⟨taId, "TA"⟩, ⟨cieId, "CIE"⟩, ⟨dwId, "Defaulter work"⟩] tid = some "TA" ↔
      tid = taId := by
  have h1' : cieId ≠ taId := fun e => h1 e.symm
  have h2' : dwId ≠ taId := fun e => h2 e.symm
  have h3' : dwId ≠ cieId := fun e => h3 e.symm
  rw [typeMapGet_three taId cieId dwId h1 h2 h3 tid]
  by_cases ha : tid = taId <;> by_cases hb : tid = cieId <;> by_cases hc : tid = dwId <;>
    simp_all

/-- On the fixed three-type vocabulary, mapping to "CIE" pins the id. -/
theorem typeMapGet_cie_iff (taId cieId dwId : Nat) (h1 : taId ≠ cieId)
    (h2 : taId ≠ dwId) (h3 : cieId ≠ dwId) (tid : Nat) :
    typeMapGet [⟨taId, "TA"⟩, ⟨cieId, "CIE"⟩, ⟨dwId, "Defaulter work"⟩] tid = some "CIE" ↔
      tid = cieId := by
  have h1' : cieId ≠ taId := fun e => h1 e.symm
  have h2' : dwId ≠ taId := fun e => h2 e.symm
  have h3' : dwId ≠ cieId := fun e => h3 e.symm
  rw [typeMapGet_three taId cieId dwId h1 h2 h3 tid]
  by_cases ha : tid = taId <;> by_cases hb : tid = cieId <;> by_cases hc : tid = dwId <;>
    simp_all

/-- On the fixed three-type vocabulary, mapping to "Defaulter work" pins the
id. -/
theorem typeMapGet_dw_iff (taId cieId dwId : Nat) (h1 : taId ≠ cieId)
    (h2 : taId ≠ dwId) (h3 : cieId ≠ dwId) (tid : Nat) :
    typeMapGet [⟨taId, "TA"⟩, ⟨cieId, "CIE"⟩, ⟨dwId, "Defaulter work"⟩] tid =
        some "Defaulter work" ↔ tid = dwId := by
  have h1' : cieId ≠ taId := fun e => h1 e.symm
  have h2' : dwId ≠ taId := fun e => h2 e.symm
  have h3' : dwId ≠ cieId := fun e => h3 e.symm
  rw [typeMapGet_three taId cieId dwId h1 h2 h3 tid]
  by_cases ha : tid = taId <;> by_cases hb : tid = cieId <;> by_cases hc : tid = dwId <;>
    simp_all

/-- The finished per-subject `submissionMap` fields read "completed" exactly
when a completed row of the corresponding type exists for the subject, under
the fixed three-type vocabulary and one-status-per-(subject, type) data. -/
theorem buildSubmissionMap_completed_iff (taId cieId dwId : Nat) (h1 : taId ≠ cieId)
    (h2 : taId ≠ dwId) (h3 : cieId ≠ dwId) (submissions : List Submission)
    (hU : ∀ s1 ∈ submissions, ∀ s2 ∈ submissions, s1.subject_id = s2.subject_id →
      s1.submission_type_id = s2.submission_type_id → s1.status = s2.status)
    (sid : Nat) :
    ((buildSubmissionMap [⟨taId, "TA"⟩, ⟨cieId, "CIE"⟩, ⟨dwId, "Defaulter work"⟩]
        (submissions.filter fun s => s.subject_id == sid)).ta = "completed" ↔
      hasCompletedRow submissions sid taId = true) ∧
    ((buildSubmissionMap [⟨taId, "TA"⟩, ⟨cieId, "CIE"⟩, ⟨dwId, "Defaulter work"⟩]
        (submissions.filter fun s => s.subject_id == sid)).cie = "completed" ↔
      hasCompletedRow submissions sid cieId = true) ∧
    ((buildSubmissionMap [⟨taId, "TA"⟩, ⟨cieId, "CIE"⟩, ⟨dwId, "Defaulter work"⟩]
        (submissions.filter fun s => s.subject_id == sid)).defaulterWork = "completed" ↔
      hasCompletedRow submissions sid dwId = true) := by
  have hmemsub : ∀ s ∈ submissions.filter fun s => s.subject_id == sid,
      s ∈ submissions ∧ s.subject_id = sid := by
    intro s hs
    rcases List.mem_filter.mp hs with ⟨hmem, heq⟩
    exact ⟨hmem, by simpa using heq⟩
  have hbridge : ∀ tid : Nat,
      ((∃ s ∈ submissions.filter fun s => s.subject_id == sid,
          s.submission_type_id = tid ∧ s.status = "completed") ∨
        ((∀ s ∈ submissions.filter fun s => s.subject_id == sid,
          ¬ s.submission_type_id = tid) ∧ ("pending" : String) = "completed")) ↔
      hasCompletedRow submissions sid tid = true := by
    intro tid
    constructor
    · rintro (⟨s, hs, htid, hst⟩ | ⟨_, hpend⟩)
      · rcases hmemsub s hs with ⟨hmem, hsid⟩
        rw [hasCompletedRow, List.any_eq_true]
        exact ⟨s, hmem, by simp [hsid, htid, hst]⟩
      · simp at hpend
    · intro h
      rw [hasCompletedRow, List.any_eq_true] at h
      rcases h with ⟨s, hmem, hconds⟩
      simp only [Bool.and_eq_true, beq_iff_eq] at hconds
      rcases hconds with ⟨⟨hsid, htid⟩, hst⟩
      exact Or.inl ⟨s, List.mem_filter.mpr ⟨hmem, by simp [hsid]⟩, htid, hst⟩
  refine ⟨?_, ?_, ?_⟩
  · rw [buildSubmissionMap,
      foldl_applySubmission_field _ "TA" (·.ta) (fun m s => applySubmission_ta _ m s) _
        (fun s1 hs1 s2 hs2 hT1 hT2 => by
          rcases hmemsub s1 hs1 with ⟨hm1, he1⟩
          rcases hmemsub s2 hs2 with ⟨hm2, he2⟩
          exact hU s1 hm1 s2 hm2 (he1.trans he2.symm)
            (((typeMapGet_ta_iff taId cieId dwId h1 h2 h3 _).mp hT1).trans
              ((typeMapGet_ta_iff taId cieId dwId h1 h2 h3 _).mp hT2).symm))]
    simp only [typeMapGet_ta_iff taId cieId dwId h1 h2 h3]
    exact hbridge taId
  · rw [buildSubmissionMap,
      foldl_applySubmission_field _ "CIE" (·.cie) (fun m s => applySubmission_cie _ m s) _
        (fun s1 hs1 s2 hs2 hT1 hT2 => by
          rcases hmemsub s1 hs1 with ⟨hm1, he1⟩
          rcases hmemsub s2 hs2 with ⟨hm2, he2⟩
          exact hU s1 hm1 s2 hm2 (he1.trans he2.symm)
            (((typeMapGet_cie_iff taId cieId dwId h1 h2 h3 _).mp hT1).trans
              ((typeMapGet_cie_iff taId cieId dwId h1 h2 h3 _).mp hT2).symm))]
    simp only [typeMapGet_cie_iff taId cieId dwId h1 h2 h3]
    exact hbridge cieId
  · rw [buildSubmissionMap,
      foldl_applySubmission_field _ "Defaulter work" (·.defaulterWork)
        (fun m s => applySubmission_dw _ m s) _
        (fun s1 hs1 s2 hs2 hT1 hT2 => by
          rcases hmemsub s1 hs1 with ⟨hm1, he1⟩
          rcases hmemsub s2 hs2 with ⟨hm2, he2⟩
          exact hU s1 hm1 s2 hm2 (he1.trans he2.symm)
            (((typeMapGet_dw_iff taId cieId dwId h1 h2 h3 _).mp hT1).trans
              ((typeMapGet_dw_iff taId cieId dwId h1 h2 h3 _).mp hT2).symm))]
    simp only [typeMapGet_dw_iff taId cieId dwId h1 h2 h3]
    exact hbridge dwId

/-- The dashboard's foldl accumulates the sum of the per-subject scores. -/
theorem dashCompletedSubmissions_eq_sum (isDefaulter : Bool) :
    ∀ (l : List SubmissionMap) (c : Nat),
      l.foldl (fun count subject =>
        count + (if subject.cie == "completed" then 1 else 0)
              + (if subject.ta == "completed" then 1 else 0)
              + (if isDefaulter && subject.defaulterWork == "completed" then 1 else 0)) c =
      c + (l.map (fun subject =>
        (if subject.cie == "completed" then (1 : Nat) else 0)
          + (if subject.ta == "completed" then 1 else 0)
          + (if isDefaulter && subject.defaulterWork == "completed" then 1 else 0))).sum := by
  intro l
  induction l with
  | nil => intro c; simp
  | cons a t ih =>
    intro c
    rw [List.foldl_cons, List.map_cons, List.sum_cons, ih]
    omega

/-- C2: the student dashboard percentage equals
`round(completed / (n × k) × 100)` with `k = 3` for defaulters and `2`
otherwise, where `completed` counts each subject's completed TA and CIE rows
plus, for defaulters only, each subject's completed "Defaulter work" row.
The submission-types table is the fixed {TA, CIE, Defaulter work} vocabulary
with distinct ids, and submission rows are unique (same status) per
(subject, type), matching the upsert semantics. -/
theorem dashboard_percentage_formula (isDefaulter : Bool) (taId cieId dwId : Nat)
    (h1 : taId ≠ cieId) (h2 : taId ≠ dwId) (h3 : cieId ≠ dwId)
    (subjectIds : List Nat) (submissions : List Submission)
    (hU : ∀ s1 ∈ submissions, ∀ s2 ∈ submissions, s1.subject_id = s2.subject_id →
      s1.submission_type_id = s2.submission_type_id → s1.status = s2.status) :
    dashboardSubmissionPercentage isDefaulter
        [⟨taId, "TA"⟩, ⟨cieId, "CIE"⟩, ⟨dwId, "Defaulter work"⟩] subjectIds submissions =
      if subjectIds.length = 0 then 0
      else mathRoundPct
        (claimedCompletedCount isDefaulter taId cieId dwId subjectIds submissions)
        (subjectIds.length * (if isDefaulter then 3 else 2)) := by
  have hcc : dashCompletedSubmissions isDefaulter
      (subjectMaps [⟨taId, "TA"⟩, ⟨cieId, "CIE"⟩, ⟨dwId, "Defaulter work"⟩]
        subjectIds submissions) =
      claimedCompletedCount isDefaulter taId cieId dwId subjectIds submissions := by
    rw [dashCompletedSubmissions, dashCompletedSubmissions_eq_sum isDefaulter _ 0,
      Nat.zero_add, subjectMaps, List.map_map, claimedCompletedCount]
    congr 1
    apply List.map_congr_left
    intro sid _
    obtain ⟨hta, hcie, hdw⟩ :=
      buildSubmissionMap_completed_iff taId cieId dwId h1 h2 h3 submissions hU sid
    have i1 : (if (buildSubmissionMap
          [⟨taId, "TA"⟩, ⟨cieId, "CIE"⟩, ⟨dwId, "Defaulter work"⟩]
          (submissions.filter fun s => s.subject_id == sid)).cie == "completed"
        then (1 : Nat) else 0) =
        if hasCompletedRow submissions sid cieId then 1 else 0 :=
      if_congr (by simp [hcie]) rfl rfl
    have i2 : (if (buildSubmissionMap
          [⟨taId, "TA"⟩, ⟨cieId, "CIE"⟩, ⟨dwId, "Defaulter work"⟩]
          (submissions.filter fun s => s.subject_id == sid)).ta == "completed"
        then (1 : Nat) else 0) =
        if hasCompletedRow submissions sid taId then 1 else 0 :=
      if_congr (by simp [hta]) rfl rfl
    have i3 : (if isDefaulter && (buildSubmissionMap
          [⟨taId, "TA"⟩, ⟨cieId, "CIE"⟩, ⟨dwId, "Defaulter work"⟩]
          (submissions.filter fun s => s.subject_id == sid)).defaulterWork == "completed"
        then (1 : Nat) else 0) =
        if isDefaulter && hasCompletedRow submissions sid dwId then 1 else 0 :=
      if_congr (by simp [Bool.and_eq_true, hdw]) rfl rfl
    simp only [Function.comp]
    rw [i1, i2, i3]
  have hk : (0 : Nat) < if isDefaulter then 3 else 2 := by cases isDefaulter <;> simp
  show (if (subjectMaps [⟨taId, "TA"⟩, ⟨cieId, "CIE"⟩, ⟨dwId, "Defaulter work"⟩]
        subjectIds submissions).length * (if isDefaulter then 3 else 2) > 0 then
      mathRoundPct (dashCompletedSubmissions isDefaulter
        (subjectMaps [⟨taId, "TA"⟩, ⟨cieId, "CIE"⟩, ⟨dwId, "Defaulter work"⟩]
          subjectIds submissions))
        ((subjectMaps [⟨taId, "TA"⟩, ⟨cieId, "CIE"⟩, ⟨dwId, "Defaulter work"⟩]
          subjectIds submissions).length * (if isDefaulter then 3 else 2))
    else 0) = _
  have hlen : (subjectMaps [⟨taId, "TA"⟩, ⟨cieId, "CIE"⟩, ⟨dwId, "Defaulter work"⟩]
      subjectIds submissions).length = subjectIds.length := by
    simp [subjectMaps]
  rw [hlen, hcc]
  by_cases h0 : subjectIds.length = 0
  · simp [h0]
  · rw [if_neg h0, if_pos (Nat.mul_pos (Nat.pos_of_ne_zero h0) hk)]

/-- Witness for `dashboard_percentage_formula`: the spec's scenario — a
defaulter with 2 subjects, TA and CIE completed on subject 1, nothing on
subject 2, "Defaulter work" completed once — scores exactly 50. -/
theorem dashboard_percentage_formula_witness :
    dashboardSubmissionPercentage true
        [⟨10, "TA"⟩, ⟨11, "CIE"⟩, ⟨12, "Defaulter work"⟩] [1, 2]
        [⟨7, 1, 10, "completed"⟩, ⟨7, 1, 11, "completed"⟩, ⟨7, 1, 12, "completed"⟩] = 50 :=
  (dashboard_percentage_formula true 10 11 12 (by decide) (by decide) (by decide) [1, 2]
      [⟨7, 1, 10, "completed"⟩, ⟨7, 1, 11, "completed"⟩, ⟨7, 1, 12, "completed"⟩]
      (by decide)).trans (by decide)

/-- C9: a student with 0 assigned subjects gets completion percentage exactly
0 from both computations — the class-teacher list short-circuits on
`totalSubjects === 0`, and the dashboard's `totalSubmissions > 0` guard
returns 0 when the subject list is empty — no division is attempted. -/
theorem zero_subjects_percentage_zero (taTypeId cieTypeId : Nat)
    (studentSubmissions : List Submission) (isDefaulter : Bool)
    (types : List SubmissionTypeRow) (submissions : List Submission) :
    studentSubmissionPercentage [] taTypeId cieTypeId studentSubmissions = 0 ∧
    dashboardSubmissionPercentage isDefaulter types [] submissions = 0 := by
  constructor
  · rfl
  · show (if (subjectMaps types [] submissions).length *
        (if isDefaulter then 3 else 2) > 0 then _ else 0) = 0
    simp [subjectMaps]

/-! ## Class / department / year rollups
(`GET /year-statistics` and `GET /department-statistics` in
`src/unnamed/part_002`, `GET /dashboard-statistics` in
`src/api/routes/submissionRoute.js` — all three build the same
`studentsWithSubmissions` set and percentage). -/

/-- The `studentsWithSubmissions` JS `Set`: distinct student ids having a
completed submission whose type is TA **or** CIE. -/
def studentsWithSubmissions (submissions : List Submission)
    (taTypeId cieTypeId : Nat) : Finset Nat :=
  ((submissions.filter fun sub =>
    sub.status == "completed" &&
      (sub.submission_type_id == taTypeId || sub.submission_type_id == cieTypeId)).map
    (·.student_id)).toFinset

/-- The rollup percentage: `Math.round((studentsWithSubmissions.size /
totalStudents) * 100)` (the routes return early when `totalStudents` is 0, so
this is only evaluated with a positive total). -/
def rollupPercentage (totalStudents : Nat) (submissions : List Submission)
    (taTypeId cieTypeId : Nat) : Nat :=
  mathRoundPct (studentsWithSubmissions submissions taTypeId cieTypeId).card totalStudents

/-- The count the claim describes: students (among the given ids) with BOTH a
completed TA row and a completed CIE row. -/
def bothCompletedCount (studentIds : List Nat) (submissions : List Submission)
    (taTypeId cieTypeId : Nat) : Nat :=
  (studentIds.filter fun sid =>
    (submissions.any fun s => s.student_id == sid && s.submission_type_id == taTypeId &&
      s.status == "completed") &&
    (submissions.any fun s => s.student_id == sid && s.submission_type_id == cieTypeId &&
      s.status == "completed")).length

/-- C3 counterexample: one student with only a completed TA row (no CIE row at
all).  The code reports 100%, but the claim's both-TA-and-CIE numerator gives
round(100·0/1) = 0, so the claimed equality fails. -/
theorem rollup_percentage_counterexample :
    rollupPercentage 1 [⟨1, 0, 10, "completed"⟩] 10 11 = 100 ∧
    mathRoundPct (bothCompletedCount [1] [⟨1, 0, 10, "completed"⟩] 10 11) 1 = 0 ∧
    rollupPercentage 1 [⟨1, 0, 10, "completed"⟩] 10 11 ≠
      mathRoundPct (bothCompletedCount [1] [⟨1, 0, 10, "completed"⟩] 10 11) 1 := by
  refine ⟨?_, ?_, ?_⟩ <;> decide

/-- C3 amended: the rollup percentage is `round(100 · c / t)` where `c` counts
distinct students having at least one completed submission of type TA **or**
CIE (a student with only one of the two completed IS counted). -/
theorem rollup_percentage_amended (totalStudents : Nat)
    (submissions : List Submission) (taTypeId cieTypeId : Nat) :
    rollupPercentage totalStudents submissions taTypeId cieTypeId =
      mathRoundPct (studentsWithSubmissions submissions taTypeId cieTypeId).card
        totalStudents ∧
    ∀ sid, sid ∈ studentsWithSubmissions submissions taTypeId cieTypeId ↔
      ∃ s ∈ submissions, s.student_id = sid ∧ s.status = "completed" ∧
        (s.submission_type_id = taTypeId ∨ s.submission_type_id = cieTypeId) := by
  refine ⟨rfl, fun sid => ?_⟩
  simp only [studentsWithSubmissions, List.mem_toFinset, List.mem_map, List.mem_filter,
    Bool.and_eq_true, Bool.or_eq_true, beq_iff_eq]
  constructor
  · rintro ⟨s, ⟨hmem, hst, hty⟩, hsid⟩
    exact ⟨s, hmem, hsid, hst, hty⟩
  · rintro ⟨s, hmem, hsid, hst, hty⟩
    exact ⟨s, ⟨hmem, hst, hty⟩, hsid⟩

/-! ## Enrolled-student resolution
(`GET /students` in `src/api/routes/submissionRoute.js` and
`GET /students` in `src/unnamed/part_000`). -/

/-- A row of `students` reduced to the columns the resolution logic reads. -/
structure StudentRow where
  id : Nat
  class_id : Nat
  batch_id : Option Nat
  deriving DecidableEq, Repr

/-- A row of `faculty_subjects`. -/
structure FacultySubjectRow where
  faculty_id : Nat
  subject_id : Nat
  class_id : Nat
  batch_id : Option Nat
  deriving DecidableEq, Repr

/-- A row of `student_subject_selection`. -/
structure SelectionRow where
  student_id : Nat
  mdm_id : Option Nat
  oe_id : Option Nat
  pe_id : Option Nat
  mdm_faculty_id : Option Nat
  oe_faculty_id : Option Nat
  pe_faculty_id : Option Nat
  selections_locked : Bool
  deriving DecidableEq, Repr

/-- The `.or(mdm_faculty_id.eq.f, oe_faculty_id.eq.f, pe_faculty_id.eq.f)`
query filter used by both endpoints. -/
def selectionMentionsFaculty (sel : SelectionRow) (faculty_id : Nat) : Bool :=
  sel.mdm_faculty_id == some faculty_id || sel.oe_faculty_id == some faculty_id ||
    sel.pe_faculty_id == some faculty_id

/-- The submission route's per-category check building `electiveStudentIds`. -/
def selectionMatches (sel : SelectionRow) (faculty_id subject_id : Nat) : Bool :=
  (sel.mdm_faculty_id == some faculty_id && sel.mdm_id == some subject_id) ||
  (sel.oe_faculty_id == some faculty_id && sel.oe_id == some subject_id) ||
  (sel.pe_faculty_id == some faculty_id && sel.pe_id == some subject_id)

/-- The submission route's per-assignment student query: class filter plus a
batch filter only when the assignment has a batch. -/
def assignmentStudents (students : List StudentRow) (a : FacultySubjectRow) :
    List StudentRow :=
  students.filter fun s => s.class_id == a.class_id &&
    (match a.batch_id with
     | some b => s.batch_id == some b
     | none => true)

/-- Students gathered from `faculty_subjects` assignments in the submission
route's `GET /students`. -/
def directStudentsFor (students : List StudentRow)
    (facultySubjects : List FacultySubjectRow) (faculty_id subject_id : Nat) :
    List StudentRow :=
  ((facultySubjects.filter fun fs =>
    fs.faculty_id == faculty_id && fs.subject_id == subject_id).map
      (assignmentStudents students)).flatten

/-- Students gathered from `student_subject_selection` in the submission
route's `GET /students`. -/
def electiveStudentsFor (students : List StudentRow) (selections : List SelectionRow)
    (faculty_id subject_id : Nat) : List StudentRow :=
  let electiveSelections := selections.filter fun sel =>
    selectionMentionsFaculty sel faculty_id
  let electiveStudentIds := (electiveSelections.filter fun sel =>
    selectionMatches sel faculty_id subject_id).map (·.student_id)
  students.filter fun s => electiveStudentIds.contains s.id

/-- The `uniqueStudentsMap` de-duplication (a JS `Map` keyed by id keeps the
first row seen; `Array.from(map.values())` preserves insertion order). -/
def uniqueByIdAux : List StudentRow → List Nat → List StudentRow
  | [], _ => []
  | s :: rest, seen =>
    if seen.contains s.id then uniqueByIdAux rest seen
    else s :: uniqueByIdAux rest (s.id :: seen)

def uniqueById (l : List StudentRow) : List StudentRow := uniqueByIdAux l []

/-- `GET /students` of `src/api/routes/submissionRoute.js` (lines 240–327):
direct-assignment students, then self-selection students, de-duplicated by
student id. -/
def submissionRouteStudents (students : List StudentRow)
    (facultySubjects : List FacultySubjectRow) (selections : List SelectionRow)
    (faculty_id subject_id : Nat) : List StudentRow :=
  uniqueById (directStudentsFor students facultySubjects faculty_id subject_id ++
    electiveStudentsFor students selections faculty_id subject_id)

/-- The direct-assignment `(student, subject)` rows of `GET /students` in
`src/unnamed/part_000` (lines 193–215): for every student of the faculty's
classes and every applicable assignment with a resolvable subject join, one
output row. -/
def part000DirectPairs (students : List StudentRow) (subjects : List SubjectRow)
    (facultySubjects : List FacultySubjectRow) (facultyId : Nat) :
    List (StudentRow × Nat) :=
  let assignments := facultySubjects.filter fun fs => fs.faculty_id == facultyId
  let classIds := assignments.map (·.class_id)
  let allStudents := students.filter fun s => classIds.contains s.class_id
  allStudents.flatMap fun student =>
    assignments.filterMap fun assignment =>
      if assignment.class_id == student.class_id &&
          (assignment.batch_id == none || assignment.batch_id == student.batch_id) then
        match subjects.find? fun subj => subj.id == assignment.subject_id with
        | some subj => some (student, subj.id)
        | none => none
      else none

/-- One elective category's contribution in `part_000` (faculty match, non-null
subject, resolvable `subjectMap` entry). -/
def electiveCategoryPairs (subjects : List SubjectRow) (facultyId : Nat)
    (student : StudentRow) (catFacultyId : Option Nat) :
    Option Nat → List (StudentRow × Nat)
  | some sid =>
    if catFacultyId == some facultyId then
      match subjects.find? fun subj => subj.id == sid with
      | some subj => [(student, subj.id)]
      | none => []
    else []
  | none => []

/-- The self-selection `(student, subject)` rows of `GET /students` in
`src/unnamed/part_000` (lines 216–330): for each student with a selection
mentioning the faculty, one row per matching category. -/
def part000ElectivePairs (students : List StudentRow) (subjects : List SubjectRow)
    (selections : List SelectionRow) (facultyId : Nat) : List (StudentRow × Nat) :=
  let electiveSelections := selections.filter fun sel =>
    selectionMentionsFaculty sel facultyId
  let electiveStudentIds := electiveSelections.map (·.student_id)
  let electiveStudents := students.filter fun s => electiveStudentIds.contains s.id
  electiveStudents.flatMap fun student =>
    match electiveSelections.find? fun sel => sel.student_id == student.id with
    | none => []
    | some selection =>
      electiveCategoryPairs subjects facultyId student
          selection.mdm_faculty_id selection.mdm_id ++
        electiveCategoryPairs subjects facultyId student
          selection.oe_faculty_id selection.oe_id ++
        electiveCategoryPairs subjects facultyId student
          selection.pe_faculty_id selection.pe_id

/-- The full `studentsWithSubjects` response of `part_000`'s `GET /students`:
direct rows first, then elective rows, no de-duplication. -/
def part000StudentsWithSubjects (students : List StudentRow) (subjects : List SubjectRow)
    (facultySubjects : List FacultySubjectRow) (selections : List SelectionRow)
    (facultyId : Nat) : List (StudentRow × Nat) :=
  part000DirectPairs students subjects facultySubjects facultyId ++
    part000ElectivePairs students subjects selections facultyId

/-- Student ids the `part_000` response lists under one subject. -/
def part000IdsForSubject (pairs : List (StudentRow × Nat)) (subject_id : Nat) :
    List Nat :=
  (pairs.filter fun p => p.2 == subject_id).map (·.1.id)

/-- C4 counterexample: student 1 is reachable both through a direct
`faculty_subjects` assignment and a matching MDM self-selection for
(faculty 9, subject 5).  The `part_000` endpoint lists the student twice for
that subject, so "each student id exactly once" fails there; the submission
route does de-duplicate. -/
theorem faculty_students_unique_counterexample :
    part000IdsForSubject
        (part000StudentsWithSubjects [⟨1, 1, none⟩] [⟨5, "mdm"⟩] [⟨9, 5, 1, none⟩]
          [⟨1, some 5, none, none, some 9, none, none, false⟩] 9) 5 = [1, 1] ∧
    ¬ (part000IdsForSubject
        (part000StudentsWithSubjects [⟨1, 1, none⟩] [⟨5, "mdm"⟩] [⟨9, 5, 1, none⟩]
          [⟨1, some 5, none, none, some 9, none, none, false⟩] 9) 5).Nodup ∧
    (submissionRouteStudents [⟨1, 1, none⟩] [⟨9, 5, 1, none⟩]
        [⟨1, some 5, none, none, some 9, none, none, false⟩] 9 5).map (·.id) = [1] := by
  refine ⟨?_, ?_, ?_⟩ <;> decide

/-- A student id is reachable through a direct `faculty_subjects` assignment
for `(faculty_id, subject_id)`. -/
def DirectlyAssigned (students : List StudentRow) (facultySubjects : List FacultySubjectRow)
    (faculty_id subject_id sid : Nat) : Prop :=
  ∃ a ∈ facultySubjects, a.faculty_id = faculty_id ∧ a.subject_id = subject_id ∧
    ∃ s ∈ students, s.id = sid ∧ s.class_id = a.class_id ∧
      (a.batch_id = none ∨ a.batch_id = s.batch_id)

/-- A student id is reachable through a `student_subject_selection` row whose
matching category names `(faculty_id, subject_id)`. -/
def SelfSelected (students : List StudentRow) (selections : List SelectionRow)
    (faculty_id subject_id sid : Nat) : Prop :=
  ∃ s ∈ students, s.id = sid ∧ ∃ sel ∈ selections, sel.student_id = s.id ∧
    ((sel.mdm_faculty_id = some faculty_id ∧ sel.mdm_id = some subject_id) ∨
     (sel.oe_faculty_id = some faculty_id ∧ sel.oe_id = some subject_id) ∨
     (sel.pe_faculty_id = some faculty_id ∧ sel.pe_id = some subject_id))

theorem assignmentStudents_mem (students : List StudentRow) (a : FacultySubjectRow)
    (s : StudentRow) :
    s ∈ assignmentStudents students a ↔
      s ∈ students ∧ s.class_id = a.class_id ∧
        (a.batch_id = none ∨ a.batch_id = s.batch_id) := by
  rw [assignmentStudents, List.mem_filter]
  rcases hb : a.batch_id with _ | b
  · simp [hb]
  · simp only [hb, Bool.and_eq_true, beq_iff_eq]
    constructor
    · rintro ⟨hs, hc, hbb⟩
      exact ⟨hs, hc, Or.inr hbb.symm⟩
    · rintro ⟨hs, hc, (h | h)⟩
      · exact absurd h (by simp)
      · exact ⟨hs, hc, h.symm⟩

theorem part000Cond_iff (a : FacultySubjectRow) (s : StudentRow) :
    (a.class_id == s.class_id && (a.batch_id == none || a.batch_id == s.batch_id)) = true ↔
      s.class_id = a.class_id ∧ (a.batch_id = none ∨ a.batch_id = s.batch_id) := by
  simp only [Bool.and_eq_true, Bool.or_eq_true, beq_iff_eq]
  constructor
  · rintro ⟨hc, hb⟩
    exact ⟨hc.symm, hb⟩
  · rintro ⟨hc, hb⟩
    exact ⟨hc.symm, hb⟩

theorem selectionMatches_iff (sel : SelectionRow) (faculty_id subject_id : Nat) :
    selectionMatches sel faculty_id subject_id = true ↔
      ((sel.mdm_faculty_id = some faculty_id ∧ sel.mdm_id = some subject_id) ∨
       (sel.oe_faculty_id = some faculty_id ∧ sel.oe_id = some subject_id) ∨
       (sel.pe_faculty_id = some faculty_id ∧ sel.pe_id = some subject_id)) := by
  simp [selectionMatches, Bool.or_eq_true, Bool.and_eq_true, or_assoc]

theorem selectionMatches_mentions (sel : SelectionRow) (faculty_id subject_id : Nat)
    (h : selectionMatches sel faculty_id subject_id = true) :
    selectionMentionsFaculty sel faculty_id = true := by
  rw [selectionMatches_iff] at h
  rcases h with ⟨h, _⟩ | ⟨h, _⟩ | ⟨h, _⟩ <;>
    simp [selectionMentionsFaculty, h]

theorem subjects_find?_of_mem (subjects : List SubjectRow) (x : Nat)
    (hx : x ∈ subjects.map (·.id)) :
    ∃ subj, (subjects.find? fun subj => subj.id == x) = some subj ∧ subj.id = x := by
  have hex : ∃ subj ∈ subjects, (fun subj : SubjectRow => subj.id == x) subj = true := by
    rcases List.mem_map.mp hx with ⟨subj, hmem, hid⟩
    exact ⟨subj, hmem, by simp [hid]⟩
  rcases Option.isSome_iff_exists.mp (List.find?_isSome.mpr hex) with ⟨subj, hfind⟩
  exact ⟨subj, hfind, by simpa using List.find?_some hfind⟩

theorem uniqueByIdAux_nodup : ∀ (l : List StudentRow) (seen : List Nat),
    ((uniqueByIdAux l seen).map (·.id)).Nodup ∧
      ∀ s ∈ uniqueByIdAux l seen, s.id ∉ seen := by
  intro l
  induction l with
  | nil => intro seen; simp [uniqueByIdAux]
  | cons s rest ih =>
    intro seen
    rw [uniqueByIdAux]
    by_cases hmem : seen.contains s.id
    · rw [if_pos hmem]
      exact (ih seen)
    · rw [if_neg hmem]
      have hseen : s.id ∉ seen := by simpa using hmem
      refine ⟨?_, ?_⟩
      · rw [List.map_cons, List.nodup_cons]
        refine ⟨?_, (ih (s.id :: seen)).1⟩
        intro hin
        rcases List.mem_map.mp hin with ⟨t, ht, hid⟩
        exact (ih (s.id :: seen)).2 t ht (hid ▸ List.mem_cons_self _ _)
      · intro t ht
        rcases List.mem_cons.mp ht with rfl | ht
        · exact hseen
        · exact fun hk => (ih (s.id :: seen)).2 t ht (List.mem_cons_of_mem _ hk)

theorem uniqueByIdAux_mem : ∀ (l : List StudentRow) (seen : List Nat) (sid : Nat),
    sid ∈ (uniqueByIdAux l seen).map (·.id) ↔ sid ∈ l.map (·.id) ∧ sid ∉ seen := by
  intro l
  induction l with
  | nil => intro seen sid; simp [uniqueByIdAux]
  | cons s rest ih =>
    intro seen sid
    rw [uniqueByIdAux]
    by_cases hmem : seen.contains s.id
    · rw [if_pos hmem]
      have hs : s.id ∈ seen := by simpa using hmem
      rw [ih seen sid, List.map_cons, List.mem_cons]
      constructor
      · rintro ⟨hin, hout⟩
        exact ⟨Or.inr hin, hout⟩
      · rintro ⟨hin | hin, hout⟩
        · exact absurd (hin ▸ hs) hout
        · exact ⟨hin, hout⟩
    · rw [if_neg hmem]
      have hs : s.id ∉ seen := by simpa using hmem
      rw [List.map_cons, List.mem_cons, ih (s.id :: seen) sid]
      simp only [List.map_cons, List.mem_cons]
      constructor
      · rintro (rfl | ⟨hin, hout⟩)
        · exact ⟨Or.inl rfl, hs⟩
        · exact ⟨Or.inr hin, fun hk => hout (Or.inr hk)⟩
      · rintro ⟨rfl | hin, hout⟩
        · exact Or.inl rfl
        · by_cases hid : sid = s.id
          · exact Or.inl hid
          · exact Or.inr ⟨hin, fun hk => by
              rcases hk with h | h
              · exact hid h
              · exact hout h⟩

theorem uniqueByIdAux_sublist : ∀ (l : List StudentRow) (seen : List Nat),
    (uniqueByIdAux l seen).Sublist l := by
  intro l
  induction l with
  | nil => intro seen; simp [uniqueByIdAux]
  | cons s rest ih =>
    intro seen
    rw [uniqueByIdAux]
    by_cases hmem : seen.contains s.id
    · rw [if_pos hmem]
      exact (ih seen).cons s
    · rw [if_neg hmem]
      exact (ih (s.id :: seen)).cons₂ s

theorem mem_directStudentsFor (students : List StudentRow)
    (facultySubjects : List FacultySubjectRow) (faculty_id subject_id sid : Nat) :
    sid ∈ (directStudentsFor students facultySubjects faculty_id subject_id).map (·.id) ↔
      DirectlyAssigned students facultySubjects faculty_id subject_id sid := by
  rw [directStudentsFor, DirectlyAssigned]
  constructor
  · intro h
    rcases List.mem_map.mp h with ⟨s, hsmem, hid⟩
    rcases List.mem_flatten.mp hsmem with ⟨l, hl, hsl⟩
    rcases List.mem_map.mp hl with ⟨a, hamem, rfl⟩
    rcases List.mem_filter.mp hamem with ⟨hafs, hcond⟩
    simp only [Bool.and_eq_true, beq_iff_eq] at hcond
    rcases (assignmentStudents_mem students a s).mp hsl with ⟨hss, hcls, hbatch⟩
    exact ⟨a, hafs, hcond.1, hcond.2, s, hss, hid, hcls, hbatch⟩
  · rintro ⟨a, hafs, hfac, hsubj, s, hss, hid, hcls, hbatch⟩
    refine List.mem_map.mpr ⟨s, ?_, hid⟩
    refine List.mem_flatten.mpr ⟨assignmentStudents students a, ?_, ?_⟩
    · exact List.mem_map.mpr ⟨a, List.mem_filter.mpr ⟨hafs, by simp [hfac, hsubj]⟩, rfl⟩
    · exact (assignmentStudents_mem students a s).mpr ⟨hss, hcls, hbatch⟩

theorem mem_electiveStudentsFor (students : List StudentRow) (selections : List SelectionRow)
    (faculty_id subject_id sid : Nat) :
    sid ∈ (electiveStudentsFor students selections faculty_id subject_id).map (·.id) ↔
      SelfSelected students selections faculty_id subject_id sid := by
  simp only [electiveStudentsFor, SelfSelected]
  constructor
  · intro h
    rcases List.mem_map.mp h with ⟨s, hsmem, hid⟩
    rcases List.mem_filter.mp hsmem with ⟨hss, hcont⟩
    have hmm : s.id ∈ ((selections.filter fun sel =>
        selectionMentionsFaculty sel faculty_id).filter fun sel =>
          selectionMatches sel faculty_id subject_id).map (·.student_id) :=
      List.elem_iff.mp hcont
    rcases List.mem_map.mp hmm with ⟨sel, hselmem, hsid⟩
    rcases List.mem_filter.mp hselmem with ⟨hsel1, hmatch⟩
    rcases List.mem_filter.mp hsel1 with ⟨hselS, _⟩
    exact ⟨s, hss, hid, sel, hselS, hsid, (selectionMatches_iff sel _ _).mp hmatch⟩
  · rintro ⟨s, hss, hid, sel, hselS, hsid, hcat⟩
    have hmatch : selectionMatches sel faculty_id subject_id = true :=
      (selectionMatches_iff _ _ _).mpr hcat
    have hment := selectionMatches_mentions sel faculty_id subject_id hmatch
    refine List.mem_map.mpr ⟨s, List.mem_filter.mpr ⟨hss, ?_⟩, hid⟩
    exact List.elem_iff.mpr (List.mem_map.mpr
      ⟨sel, List.mem_filter.mpr ⟨List.mem_filter.mpr ⟨hselS, hment⟩, hmatch⟩, hsid⟩)

theorem mem_part000Direct (students : List StudentRow) (subjects : List SubjectRow)
    (facultySubjects : List FacultySubjectRow) (facultyId subject_id sid : Nat)
    (hx : subject_id ∈ subjects.map (·.id)) :
    sid ∈ part000IdsForSubject
        (part000DirectPairs students subjects facultySubjects facultyId) subject_id ↔
      DirectlyAssigned students facultySubjects facultyId subject_id sid := by
  simp only [part000IdsForSubject, part000DirectPairs, DirectlyAssigned]
  constructor
  · intro h
    rcases List.mem_map.mp h with ⟨p, hpmem, hpid⟩
    rcases List.mem_filter.mp hpmem with ⟨hpairs, hpx⟩
    rcases List.mem_flatMap.mp hpairs with ⟨s, hsall, hpin⟩
    rcases List.mem_filterMap.mp hpin with ⟨a, hamem, hfa⟩
    rcases List.mem_filter.mp hamem with ⟨hafs, hafac⟩
    rcases List.mem_filter.mp hsall with ⟨hss, _⟩
    by_cases hcond : (a.class_id == s.class_id &&
        (a.batch_id == none || a.batch_id == s.batch_id)) = true
    · rw [if_pos hcond] at hfa
      rcases hfind : (subjects.find? fun subj => subj.id == a.subject_id) with _ | subj
      · rw [hfind] at hfa; exact absurd hfa (by simp)
      · rw [hfind] at hfa
        have hsubjid : subj.id = a.subject_id := by simpa using List.find?_some hfind
        have hp : p = (s, subj.id) := by simpa using hfa.symm
        rcases (part000Cond_iff a s).mp hcond with ⟨hcls, hbatch⟩
        refine ⟨a, hafs, by simpa using hafac, ?_, s, hss, ?_, hcls, hbatch⟩
        · have : p.2 = subject_id := by simpa using hpx
          rw [hp] at this
          exact hsubjid ▸ this
        · rw [hp] at hpid
          exact hpid
    · rw [if_neg hcond] at hfa
      exact absurd hfa (by simp)
  · rintro ⟨a, hafs, hfac, hsubj, s, hss, hid, hcls, hbatch⟩
    rcases subjects_find?_of_mem subjects subject_id hx with ⟨subj, hfind, hsubjid⟩
    have hamem : a ∈ facultySubjects.filter fun fs => fs.faculty_id == facultyId :=
      List.mem_filter.mpr ⟨hafs, by simp [hfac]⟩
    refine List.mem_map.mpr ⟨(s, subj.id), List.mem_filter.mpr ⟨?_, by simp [hsubjid]⟩,
      by simpa using hid⟩
    refine List.mem_flatMap.mpr ⟨s, List.mem_filter.mpr ⟨hss, ?_⟩, ?_⟩
    · exact List.elem_iff.mpr (List.mem_map.mpr ⟨a, hamem, hcls.symm⟩)
    · refine List.mem_filterMap.mpr ⟨a, hamem, ?_⟩
      rw [if_pos ((part000Cond_iff a s).mpr ⟨hcls, hbatch⟩), hsubj, hfind]

theorem electiveCategoryPairs_spec (subjects : List SubjectRow) (facultyId : Nat)
    (student : StudentRow) (catFac catSubj : Option Nat) (subject_id sid : Nat)
    (hx : subject_id ∈ subjects.map (·.id)) :
    (∃ p ∈ electiveCategoryPairs subjects facultyId student catFac catSubj,
        p.2 = subject_id ∧ p.1.id = sid) ↔
      (catFac = some facultyId ∧ catSubj = some subject_id ∧ student.id = sid) := by
  rcases catSubj with _ | s0
  · simp [electiveCategoryPairs]
  · have hred : electiveCategoryPairs subjects facultyId student catFac (some s0) =
        if catFac == some facultyId then
          (match subjects.find? fun subj => subj.id == s0 with
           | some subj => [(student, subj.id)]
           | none => [])
        else [] := rfl
    constructor
    · rintro ⟨p, hp, hx2, hid⟩
      rw [hred] at hp
      by_cases hf : (catFac == some facultyId) = true
      · rw [if_pos hf] at hp
        rcases hfind : (subjects.find? fun subj => subj.id == s0) with _ | subj
        · rw [hfind] at hp; simp at hp
        · rw [hfind] at hp
          have hpe : p = (student, subj.id) := by simpa using hp
          have hsubjid : subj.id = s0 := by simpa using List.find?_some hfind
          subst hpe
          refine ⟨by simpa using hf, ?_, by simpa using hid⟩
          rw [Option.some_inj]
          have h2 : subj.id = subject_id := by simpa using hx2
          rw [← hsubjid, h2]
      · rw [if_neg hf] at hp; simp at hp
    · rintro ⟨hf, hcs, hid⟩
      have hs0 : s0 = subject_id := by simpa using hcs
      subst hs0
      rcases subjects_find?_of_mem subjects s0 hx with ⟨subj, hfind, hsubjid⟩
      refine ⟨(student, subj.id), ?_, by simpa using hsubjid, by simpa using hid⟩
      rw [hred, if_pos (by simp [hf]), hfind]
      simp

theorem mem_part000Elective (students : List StudentRow) (subjects : List SubjectRow)
    (selections : List SelectionRow) (facultyId subject_id sid : Nat)
    (hx : subject_id ∈ subjects.map (·.id))
    (hSel : ∀ r1 ∈ selections, ∀ r2 ∈ selections, r1.student_id = r2.student_id → r1 = r2) :
    sid ∈ part000IdsForSubject
        (part000ElectivePairs students subjects selections facultyId) subject_id ↔
      SelfSelected students selections facultyId subject_id sid := by
  simp only [part000IdsForSubject, part000ElectivePairs, SelfSelected]
  constructor
  · intro h
    rcases List.mem_map.mp h with ⟨p, hpmem, hpid⟩
    rcases List.mem_filter.mp hpmem with ⟨hpairs, hpx⟩
    rcases List.mem_flatMap.mp hpairs with ⟨s, hsmem, hpin⟩
    rcases List.mem_filter.mp hsmem with ⟨hss, _⟩
    rcases hfindsel : ((selections.filter fun sel =>
        selectionMentionsFaculty sel facultyId).find? fun sel =>
          sel.student_id == s.id) with _ | selection
    · rw [hfindsel] at hpin; simp at hpin
    · rw [hfindsel] at hpin
      have hselmem := List.mem_of_find?_eq_some hfindsel
      have hselS := (List.mem_filter.mp hselmem).1
      have hsid : selection.student_id = s.id := by simpa using List.find?_some hfindsel
      have hpx' : p.2 = subject_id := by simpa using hpx
      rcases List.mem_append.mp hpin with h12 | h3
      · rcases List.mem_append.mp h12 with h1 | h2
        · rcases (electiveCategoryPairs_spec subjects facultyId s
              selection.mdm_faculty_id selection.mdm_id subject_id sid hx).mp
              ⟨p, h1, hpx', hpid⟩ with ⟨hf, hc, hsd⟩
          exact ⟨s, hss, hsd, selection, hselS, hsid, Or.inl ⟨hf, hc⟩⟩
        · rcases (electiveCategoryPairs_spec subjects facultyId s
              selection.oe_faculty_id selection.oe_id subject_id sid hx).mp
              ⟨p, h2, hpx', hpid⟩ with ⟨hf, hc, hsd⟩
          exact ⟨s, hss, hsd, selection, hselS, hsid, Or.inr (Or.inl ⟨hf, hc⟩)⟩
      · rcases (electiveCategoryPairs_spec subjects facultyId s
            selection.pe_faculty_id selection.pe_id subject_id sid hx).mp
            ⟨p, h3, hpx', hpid⟩ with ⟨hf, hc, hsd⟩
        exact ⟨s, hss, hsd, selection, hselS, hsid, Or.inr (Or.inr ⟨hf, hc⟩)⟩
  · rintro ⟨s, hss, hid, sel, hselS, hsid, hcat⟩
    have hment : selectionMentionsFaculty sel facultyId = true := by
      rcases hcat with ⟨h, _⟩ | ⟨h, _⟩ | ⟨h, _⟩ <;> simp [selectionMentionsFaculty, h]
    have hselF : sel ∈ selections.filter fun sel => selectionMentionsFaculty sel facultyId :=
      List.mem_filter.mpr ⟨hselS, hment⟩
    have hexists : ∃ r ∈ selections.filter fun sel =>
        selectionMentionsFaculty sel facultyId, (r.student_id == s.id) = true :=
      ⟨sel, hselF, by simp [hsid]⟩
    rcases Option.isSome_iff_exists.mp (List.find?_isSome.mpr hexists) with ⟨selection, hfindsel⟩
    have hselmem := List.mem_of_find?_eq_some hfindsel
    have hsid2 : selection.student_id = s.id := by simpa using List.find?_some hfindsel
    have heq : selection = sel :=
      hSel selection (List.mem_filter.mp hselmem).1 sel hselS (hsid2.trans hsid.symm)
    have hsfilter : s ∈ students.filter fun s =>
        ((selections.filter fun sel => selectionMentionsFaculty sel facultyId).map
          (·.student_id)).contains s.id :=
      List.mem_filter.mpr ⟨hss, List.elem_iff.mpr (List.mem_map.mpr ⟨sel, hselF, hsid⟩)⟩
    have hbody : (match (selections.filter fun sel =>
          selectionMentionsFaculty sel facultyId).find? fun sel =>
            sel.student_id == s.id with
        | none => ([] : List (StudentRow × Nat))
        | some selection =>
          electiveCategoryPairs subjects facultyId s
              selection.mdm_faculty_id selection.mdm_id ++
            electiveCategoryPairs subjects facultyId s
              selection.oe_faculty_id selection.oe_id ++
            electiveCategoryPairs subjects facultyId s
              selection.pe_faculty_id selection.pe_id) =
        electiveCategoryPairs subjects facultyId s sel.mdm_faculty_id sel.mdm_id ++
          electiveCategoryPairs subjects facultyId s sel.oe_faculty_id sel.oe_id ++
          electiveCategoryPairs subjects facultyId s sel.pe_faculty_id sel.pe_id := by
      rw [hfindsel, heq]
    rcases hcat with ⟨hf, hc⟩ | ⟨hf, hc⟩ | ⟨hf, hc⟩
    · rcases (electiveCategoryPairs_spec subjects facultyId s
          sel.mdm_faculty_id sel.mdm_id subject_id sid hx).mpr ⟨hf, hc, hid⟩ with
        ⟨p, hp, hpx, hpid⟩
      refine List.mem_map.mpr ⟨p, List.mem_filter.mpr
        ⟨List.mem_flatMap.mpr ⟨s, hsfilter, ?_⟩, by simp [hpx]⟩, hpid⟩
      rw [hbody]
      exact List.mem_append.mpr (Or.inl (List.mem_append.mpr (Or.inl hp)))
    · rcases (electiveCategoryPairs_spec subjects facultyId s
          sel.oe_faculty_id sel.oe_id subject_id sid hx).mpr ⟨hf, hc, hid⟩ with
        ⟨p, hp, hpx, hpid⟩
      refine List.mem_map.mpr ⟨p, List.mem_filter.mpr
        ⟨List.mem_flatMap.mpr ⟨s, hsfilter, ?_⟩, by simp [hpx]⟩, hpid⟩
      rw [hbody]
      exact List.mem_append.mpr (Or.inl (List.mem_append.mpr (Or.inr hp)))
    · rcases (electiveCategoryPairs_spec subjects facultyId s
          sel.pe_faculty_id sel.pe_id subject_id sid hx).mpr ⟨hf, hc, hid⟩ with
        ⟨p, hp, hpx, hpid⟩
      refine List.mem_map.mpr ⟨p, List.mem_filter.mpr
        ⟨List.mem_flatMap.mpr ⟨s, hsfilter, ?_⟩, by simp [hpx]⟩, hpid⟩
      rw [hbody]
      exact List.mem_append.mpr (Or.inr hp)

/-- C4 amended: the submission-marking student list contains each student id
exactly once, in first-seen order with direct-assignment students before
self-selection students (it is a sublist of direct ++ elective); the
`part_000` view-my-students endpoint does not de-duplicate, but restricted to
one subject the two endpoints agree on the SET of student ids, provided each
student has at most one selection row and the subject row exists. -/
theorem faculty_students_dedup_and_agree (students : List StudentRow)
    (subjects : List SubjectRow) (facultySubjects : List FacultySubjectRow)
    (selections : List SelectionRow) (faculty_id subject_id : Nat)
    (hSel : ∀ r1 ∈ selections, ∀ r2 ∈ selections, r1.student_id = r2.student_id → r1 = r2)
    (hSubj : subject_id ∈ subjects.map (·.id)) :
    ((submissionRouteStudents students facultySubjects selections
        faculty_id subject_id).map (·.id)).Nodup ∧
    (submissionRouteStudents students facultySubjects selections
        faculty_id subject_id).Sublist
      (directStudentsFor students facultySubjects faculty_id subject_id ++
        electiveStudentsFor students selections faculty_id subject_id) ∧
    ∀ sid, sid ∈ (submissionRouteStudents students facultySubjects selections
        faculty_id subject_id).map (·.id) ↔
      sid ∈ part000IdsForSubject
        (part000StudentsWithSubjects students subjects facultySubjects selections
          faculty_id) subject_id := by
  refine ⟨(uniqueByIdAux_nodup _ []).1, uniqueByIdAux_sublist _ [], fun sid => ?_⟩
  rw [submissionRouteStudents, uniqueById, uniqueByIdAux_mem]
  simp only [List.map_append, List.mem_append, List.not_mem_nil, not_false_iff, and_true]
  rw [mem_directStudentsFor, mem_electiveStudentsFor, part000StudentsWithSubjects]
  have hsplit : part000IdsForSubject
      (part000DirectPairs students subjects facultySubjects faculty_id ++
        part000ElectivePairs students subjects selections faculty_id) subject_id =
      part000IdsForSubject
        (part000DirectPairs students subjects facultySubjects faculty_id) subject_id ++
      part000IdsForSubject
        (part000ElectivePairs students subjects selections faculty_id) subject_id := by
    simp [part000IdsForSubject, List.filter_append]
  rw [hsplit, List.mem_append,
    mem_part000Direct students subjects facultySubjects faculty_id subject_id sid hSubj,
    mem_part000Elective students subjects selections faculty_id subject_id sid hSubj hSel]

/-- Witness for `faculty_students_dedup_and_agree` at the concrete database
where student 1 is enrolled through both sources for (faculty 9, subject 5). -/
theorem faculty_students_dedup_and_agree_witness :
    ((submissionRouteStudents [⟨1, 1, none⟩] [⟨9, 5, 1, none⟩]
        [⟨1, some 5, none, none, some 9, none, none, false⟩] 9 5).map (·.id)).Nodup ∧
    (submissionRouteStudents [⟨1, 1, none⟩] [⟨9, 5, 1, none⟩]
        [⟨1, some 5, none, none, some 9, none, none, false⟩] 9 5).Sublist
      (directStudentsFor [⟨1, 1, none⟩] [⟨9, 5, 1, none⟩] 9 5 ++
        electiveStudentsFor [⟨1, 1, none⟩]
          [⟨1, some 5, none, none, some 9, none, none, false⟩] 9 5) ∧
    ∀ sid, sid ∈ (submissionRouteStudents [⟨1, 1, none⟩] [⟨9, 5, 1, none⟩]
        [⟨1, some 5, none, none, some 9, none, none, false⟩] 9 5).map (·.id) ↔
      sid ∈ part000IdsForSubject
        (part000StudentsWithSubjects [⟨1, 1, none⟩] [⟨5, "mdm"⟩] [⟨9, 5, 1, none⟩]
          [⟨1, some 5, none, none, some 9, none, none, false⟩] 9) 5 :=
  faculty_students_dedup_and_agree [⟨1, 1, none⟩] [⟨5, "mdm"⟩] [⟨9, 5, 1, none⟩]
    [⟨1, some 5, none, none, some 9, none, none, false⟩] 9 5 (by decide) (by decide)

/-! ## Elective selection (`POST /select-elective` and `POST /lock-selections`
in `src/api/routes/students.js`). -/

/-- Supabase `.maybeSingle()`: `null` when no row matches, the row when
exactly one matches, and an error (PGRST116) when more than one row
matches. -/
def maybeSingle {α : Type} (l : List α) (p : α → Bool) : Except Unit (Option α) :=
  match l.filter p with
  | [] => .ok none
  | [a] => .ok (some a)
  | _ :: _ :: _ => .error ()

theorem maybeSingle_filter_nil {α : Type} (l : List α) (p : α → Bool)
    (h : l.filter p = []) : maybeSingle l p = .ok none := by
  unfold maybeSingle; rw [h]

theorem maybeSingle_filter_single {α : Type} (l : List α) (p : α → Bool) (a : α)
    (h : l.filter p = [a]) : maybeSingle l p = .ok (some a) := by
  unfold maybeSingle; rw [h]

theorem maybeSingle_filter_multi {α : Type} (l : List α) (p : α → Bool) (a b : α)
    (t : List α) (h : l.filter p = a :: b :: t) : maybeSingle l p = .error () := by
  unfold maybeSingle; rw [h]

inductive SelectElectiveResult where
  | badRequest (error : String)
  | serverError
  | locked
  | validationError
  | updated (row : SelectionRow)
  | created (row : SelectionRow)
  deriving DecidableEq, Repr

/-- The `updateData` payload of `POST /select-elective` merged into a
selection row (update path), or into the blank insert row. -/
def applyCategoryUpdate (row : SelectionRow) (ty : String)
    (subject_id faculty_id : Nat) : SelectionRow :=
  if ty == "MDM" then
    { row with mdm_id := some subject_id, mdm_faculty_id := some faculty_id }
  else if ty == "OE" then
    { row with oe_id := some subject_id, oe_faculty_id := some faculty_id }
  else if ty == "PE" then
    { row with pe_id := some subject_id, pe_faculty_id := some faculty_id }
  else row

/-- The insert payload's base: all categories null, `selections_locked: false`. -/
def blankSelection (student_id : Nat) : SelectionRow :=
  ⟨student_id, none, none, none, none, none, none, false⟩

/-- `POST /select-elective` (`src/api/routes/students.js`, lines 801–893):
type whitelist; `maybeSingle` lookup of the student's selection row (a thrown
lookup error becomes the 500 response); lock check; `maybeSingle`
faculty-teaches-subject lookup against `faculty_subjects`, where
`if (fsError || !facultySubject)` sends both the multiple-rows error and the
no-row case to the same 400 "does not teach" response; then update-or-insert
of the category's column pair. -/
def selectElective (selections : List SelectionRow)
    (facultySubjects : List FacultySubjectRow)
    (student_id subject_id faculty_id : Nat) (ty : String) : SelectElectiveResult :=
  if !(["MDM", "OE", "PE"].contains ty) then
    .badRequest "Invalid type. Must be one of: MDM, OE, or PE."
  else
    match maybeSingle selections (fun sel => sel.student_id == student_id) with
    | .error _ => .serverError
    | .ok existing =>
      if (match existing with | some e => e.selections_locked | none => false) then .locked
      else
        match maybeSingle facultySubjects (fun fs =>
            fs.subject_id == subject_id && fs.faculty_id == faculty_id) with
        | .error _ => .validationError
        | .ok none => .validationError
        | .ok (some _) =>
          match existing with
          | some e => .updated (applyCategoryUpdate e ty subject_id faculty_id)
          | none =>
            .created (applyCategoryUpdate (blankSelection student_id) ty subject_id faculty_id)

/-- The (subject, faculty) column pair a category name addresses. -/
def categoryColumns (row : SelectionRow) : String → Option Nat × Option Nat
  | "MDM" => (row.mdm_id, row.mdm_faculty_id)
  | "OE" => (row.oe_id, row.oe_faculty_id)
  | "PE" => (row.pe_id, row.pe_faculty_id)
  | _ => (none, none)

/-- C5 counterexample: `faculty_subjects` rows linking (faculty 9, subject 5)
exist — two of them, one per batch, as `POST /subjects/assign` creates for a
practical — yet an unlocked "MDM" selection fails with the ValidationError
response: `.maybeSingle()` errors on multiple rows and
`if (fsError || !facultySubject)` returns the 400, so "otherwise the call
succeeds" is false. -/
theorem select_elective_duplicate_counterexample :
    (∃ a ∈ ([⟨9, 5, 1, some 1⟩, ⟨9, 5, 1, some 2⟩] : List FacultySubjectRow),
      a.faculty_id = 9 ∧ a.subject_id = 5) ∧
    selectElective [] [⟨9, 5, 1, some 1⟩, ⟨9, 5, 1, some 2⟩] 1 5 9 "MDM" =
      .validationError := by
  constructor
  · exact ⟨⟨9, 5, 1, some 1⟩, by decide, rfl, rfl⟩
  · rfl

/-- C5 amended: for `select(category ∈ {MDM, OE, PE})`: a locked existing row
fails with LockedError regardless of category; when the `faculty_subjects`
lookup does not yield exactly one row linking faculty_id to subject_id —
none, or several (maybeSingle errors) — the call fails with ValidationError
regardless of prior state; with exactly one linking row the call succeeds,
upserting `(subject_id, faculty_id)` into exactly that category's column
pair — the written row carries the new pair in the chosen category and leaves
the other categories, the lock flag and the student id unchanged. -/
theorem select_elective_contract (selections : List SelectionRow)
    (facultySubjects : List FacultySubjectRow)
    (student_id subject_id faculty_id : Nat) (ty : String)
    (hTy : ty = "MDM" ∨ ty = "OE" ∨ ty = "PE") :
    (∀ e, maybeSingle selections (fun sel => sel.student_id == student_id) =
        .ok (some e) →
      e.selections_locked = true →
      selectElective selections facultySubjects student_id subject_id faculty_id ty =
        .locked) ∧
    (∀ existing, maybeSingle selections (fun sel => sel.student_id == student_id) =
        .ok existing →
      (∀ e, existing = some e → e.selections_locked = false) →
      (∀ fs0, (facultySubjects.filter fun fs =>
        fs.subject_id == subject_id && fs.faculty_id == faculty_id) ≠ [fs0]) →
      selectElective selections facultySubjects student_id subject_id faculty_id ty =
        .validationError) ∧
    (∀ fs0 e, maybeSingle selections (fun sel => sel.student_id == student_id) =
        .ok (some e) →
      e.selections_locked = false →
      (facultySubjects.filter fun fs =>
        fs.subject_id == subject_id && fs.faculty_id == faculty_id) = [fs0] →
      selectElective selections facultySubjects student_id subject_id faculty_id ty =
        .updated (applyCategoryUpdate e ty subject_id faculty_id)) ∧
    (∀ fs0, maybeSingle selections (fun sel => sel.student_id == student_id) =
        .ok none →
      (facultySubjects.filter fun fs =>
        fs.subject_id == subject_id && fs.faculty_id == faculty_id) = [fs0] →
      selectElective selections facultySubjects student_id subject_id faculty_id ty =
        .created (applyCategoryUpdate (blankSelection student_id) ty
          subject_id faculty_id)) ∧
    (∀ row : SelectionRow,
      categoryColumns (applyCategoryUpdate row ty subject_id faculty_id) ty =
        (some subject_id, some faculty_id) ∧
      (∀ ty', (ty' = "MDM" ∨ ty' = "OE" ∨ ty' = "PE") → ty' ≠ ty →
        categoryColumns (applyCategoryUpdate row ty subject_id faculty_id) ty' =
          categoryColumns row ty') ∧
      (applyCategoryUpdate row ty subject_id faculty_id).selections_locked =
        row.selections_locked ∧
      (applyCategoryUpdate row ty subject_id faculty_id).student_id = row.student_id) := by
  refine ⟨?_, ?_, ?_, ?_, ?_⟩
  · intro e hms hlock
    rcases hTy with rfl | rfl | rfl <;> simp [selectElective, hms, hlock]
  · intro existing hms hnl hne
    have hmsf : maybeSingle facultySubjects (fun fs =>
        fs.subject_id == subject_id && fs.faculty_id == faculty_id) = .ok none ∨
        maybeSingle facultySubjects (fun fs =>
          fs.subject_id == subject_id && fs.faculty_id == faculty_id) = .error () := by
      rcases hfil : facultySubjects.filter (fun fs =>
          fs.subject_id == subject_id && fs.faculty_id == faculty_id) with _ | ⟨a, t⟩
      · exact Or.inl (maybeSingle_filter_nil _ _ hfil)
      · rcases t with _ | ⟨b, t'⟩
        · exact absurd hfil (hne a)
        · exact Or.inr (maybeSingle_filter_multi _ _ a b t' hfil)
    rcases existing with _ | e
    · rcases hmsf with hmsf | hmsf <;>
        rcases hTy with rfl | rfl | rfl <;> simp [selectElective, hms, hmsf]
    · have hl := hnl e rfl
      rcases hmsf with hmsf | hmsf <;>
        rcases hTy with rfl | rfl | rfl <;> simp [selectElective, hms, hl, hmsf]
  · intro fs0 e hms hlock hfil
    have hmsf := maybeSingle_filter_single _ _ fs0 hfil
    rcases hTy with rfl | rfl | rfl <;> simp [selectElective, hms, hlock, hmsf]
  · intro fs0 hms hfil
    have hmsf := maybeSingle_filter_single _ _ fs0 hfil
    rcases hTy with rfl | rfl | rfl <;> simp [selectElective, hms, hmsf]
  · intro row
    rcases hTy with rfl | rfl | rfl
    · refine ⟨by simp [applyCategoryUpdate, categoryColumns], ?_, by simp [applyCategoryUpdate],
        by simp [applyCategoryUpdate]⟩
      rintro ty' (rfl | rfl | rfl) hne <;> simp_all [applyCategoryUpdate, categoryColumns]
    · refine ⟨by simp [applyCategoryUpdate, categoryColumns], ?_, by simp [applyCategoryUpdate],
        by simp [applyCategoryUpdate]⟩
      rintro ty' (rfl | rfl | rfl) hne <;> simp_all [applyCategoryUpdate, categoryColumns]
    · refine ⟨by simp [applyCategoryUpdate, categoryColumns], ?_, by simp [applyCategoryUpdate],
        by simp [applyCategoryUpdate]⟩
      rintro ty' (rfl | rfl | rfl) hne <;> simp_all [applyCategoryUpdate, categoryColumns]

/-- Witness for `select_elective_contract`: a locked existing row makes a
"MDM" selection fail with the lock error. -/
theorem select_elective_contract_witness :
    selectElective [⟨1, none, none, none, none, none, none, true⟩] [] 1 5 9 "MDM" =
      .locked :=
  (select_elective_contract [⟨1, none, none, none, none, none, none, true⟩] [] 1 5 9 "MDM"
    (Or.inl rfl)).1 ⟨1, none, none, none, none, none, none, true⟩ rfl rfl

inductive LockResult where
  | noSelections
  | incomplete (missing : List String)
  | success (row : SelectionRow)
  deriving DecidableEq, Repr

/-- The `missingSubjects` accumulation of `POST /lock-selections`
(`src/api/routes/students.js`, lines 932–965): per class year, push the
required categories whose subject column is null, in the source's push
order. -/
def missingSubjects (classYear : Nat) (selections : SelectionRow) : List String :=
  if classYear == 2 then
    (if selections.oe_id == none then ["OE"] else []) ++
      (if selections.mdm_id == none then ["MDM"] else [])
  else if classYear == 3 then
    (if selections.oe_id == none then ["OE"] else []) ++
      (if selections.mdm_id == none then ["MDM"] else []) ++
      (if selections.pe_id == none then ["PE"] else [])
  else if classYear == 4 then
    (if selections.oe_id == none then ["OE"] else []) ++
      (if selections.pe_id == none then ["PE"] else [])
  else []

/-- `POST /lock-selections`: missing row → error; non-empty missing list →
incomplete-selection error listing it; otherwise set
`selections_locked = true`. -/
def lockSelections (classYear : Nat) (selections : Option SelectionRow) : LockResult :=
  match selections with
  | none => .noSelections
  | some sel =>
    let missing := missingSubjects classYear sel
    if missing.length > 0 then .incomplete missing
    else .success { sel with selections_locked := true }

/-- The year-requirement table as the spec states it (Year 2: OE+MDM,
Year 3: OE+MDM+PE, Year 4: OE+PE, in the fixed order OE, MDM, PE). -/
def specRequiredCategories (year : Nat) : List String :=
  if year = 2 then ["OE", "MDM"]
  else if year = 3 then ["OE", "MDM", "PE"]
  else if year = 4 then ["OE", "PE"]
  else []

/-- A category name has no selected subject in the row. -/
def categoryUnselected (sel : SelectionRow) : String → Bool
  | "OE" => sel.oe_id == none
  | "MDM" => sel.mdm_id == none
  | "PE" => sel.pe_id == none
  | _ => false

/-- C6: `lock()` fails listing exactly the missing required categories of the
class year's requirement table, in the fixed order OE, MDM, PE; when no
required category is null it succeeds setting `selections_locked = true`. -/
theorem lock_selections_contract (classYear : Nat) (sel : SelectionRow)
    (hy : classYear = 2 ∨ classYear = 3 ∨ classYear = 4) :
    missingSubjects classYear sel =
      (specRequiredCategories classYear).filter (categoryUnselected sel) ∧
    (missingSubjects classYear sel ≠ [] →
      lockSelections classYear (some sel) = .incomplete (missingSubjects classYear sel)) ∧
    (missingSubjects classYear sel = [] →
      lockSelections classYear (some sel) =
        .success { sel with selections_locked := true }) := by
  refine ⟨?_, ?_, ?_⟩
  · rcases hy with rfl | rfl | rfl <;>
      rcases hoe : sel.oe_id with _ | o <;>
      rcases hmd : sel.mdm_id with _ | m <;>
      rcases hpe : sel.pe_id with _ | p <;>
      simp [missingSubjects, specRequiredCategories, categoryUnselected, hoe, hmd, hpe,
        List.filter_cons]
  · intro h
    have hpos : 0 < (missingSubjects classYear sel).length := List.length_pos.mpr h
    simp [lockSelections, hpos]
  · intro h
    simp [lockSelections, h]

/-- Witness for `lock_selections_contract`: a Year-3 student missing only PE
fails listing exactly ["PE"]. -/
theorem lock_selections_contract_witness :
    missingSubjects 3 ⟨1, some 21, some 22, none, some 31, some 32, none, false⟩ =
      ["PE"] ∧
    lockSelections 3 (some ⟨1, some 21, some 22, none, some 31, some 32, none, false⟩) =
      .incomplete ["PE"] := by
  have h := lock_selections_contract 3
    ⟨1, some 21, some 22, none, some 31, some 32, none, false⟩ (Or.inr (Or.inl rfl))
  have hm : missingSubjects 3
      ⟨1, some 21, some 22, none, some 31, some 32, none, false⟩ = ["PE"] :=
    h.1.trans (by decide)
  exact ⟨hm, (h.2.1 (by decide)).trans (by rw [hm])⟩

/-! ## Elective eligibility
(`GET /elective-subjects` in `src/api/routes/students.js` and
`GET /elective-subjects/:studentId` in `src/unnamed/part_001`). -/

/-- The nested `subjects` join of a `department_offered_subjects` row. -/
structure SubjectInfo where
  id : Nat
  name : String
  type : String
  deriving DecidableEq, Repr

/-- A row of `department_offered_subjects` (already filtered to the class's
year and `is_active` by the query). -/
structure OfferedRow where
  subject_id : Nat
  department_id : Nat
  faculty_ids : List Nat
  subject : Option SubjectInfo
  deriving DecidableEq, Repr

structure ElectiveBuckets where
  mdm : List SubjectInfo
  oe : List SubjectInfo
  pe : List SubjectInfo
  deriving DecidableEq, Repr

def charsStartWith : List Char → List Char → Bool
  | [], _ => true
  | _ :: _, [] => false
  | a :: as, b :: bs => a == b && charsStartWith as bs

def charsContain (pat : List Char) : List Char → Bool
  | [] => charsStartWith pat []
  | c :: t => charsStartWith pat (c :: t) || charsContain pat t

/-- JS `String.prototype.includes`. -/
def jsIncludes (s pat : String) : Bool := charsContain pat.toList s.toList

/-- JS `String.prototype.toLowerCase` (ASCII range suffices for the data). -/
def jsToLower (s : String) : String := String.mk (s.toList.map Char.toLower)

/-- One step of the student-facing categorization loop
(`src/api/routes/students.js`, lines 639–683): year-gated type-or-name
classification; PE additionally requires the offering department to match the
student's department. -/
def categorizeStep (year department_id : Nat) (buckets : ElectiveBuckets)
    (offered : OfferedRow) : ElectiveBuckets :=
  match offered.subject with
  | none => buckets
  | some subject =>
    let subjectType := jsToLower subject.type
    let subjectName := jsToLower subject.name
    if (year == 2 || year == 3) && (subjectType == "mdm" ||
        jsIncludes subjectName "multidisciplinary" || jsIncludes subjectName "mdm") then
      { buckets with mdm := buckets.mdm ++ [subject] }
    else if (year == 2 || year == 3 || year == 4) && (subjectType == "oe" ||
        jsIncludes subjectName "open elective" || jsIncludes subjectName "oe") then
      { buckets with oe := buckets.oe ++ [subject] }
    else if (year == 3 || year == 4) && (subjectType == "pe" ||
        jsIncludes subjectName "professional elective" || jsIncludes subjectName "pe") then
      if offered.department_id == department_id then
        { buckets with pe := buckets.pe ++ [subject] }
      else buckets
    else buckets

def categorizeElectives (year department_id : Nat) (offered : List OfferedRow) :
    ElectiveBuckets :=
  offered.foldl (categorizeStep year department_id) ⟨[], [], []⟩

/-- One step of the class-teacher categorization loop
(`src/unnamed/part_001`, lines 1038–1068): same type-or-name classification
and PE department filter, but no year gate at all. -/
def categorizeStepTeacher (department_id : Nat) (buckets : ElectiveBuckets)
    (offered : OfferedRow) : ElectiveBuckets :=
  match offered.subject with
  | none => buckets
  | some subject =>
    let subjectType := jsToLower subject.type
    let subjectName := jsToLower subject.name
    if subjectType == "mdm" || jsIncludes subjectName "multidisciplinary" then
      { buckets with mdm := buckets.mdm ++ [subject] }
    else if subjectType == "oe" || jsIncludes subjectName "open elective" then
      { buckets with oe := buckets.oe ++ [subject] }
    else if subjectType == "pe" || jsIncludes subjectName "professional elective" then
      if offered.department_id == department_id then
        { buckets with pe := buckets.pe ++ [subject] }
      else buckets
    else buckets

def categorizeElectivesTeacher (department_id : Nat) (offered : List OfferedRow) :
    ElectiveBuckets :=
  offered.foldl (categorizeStepTeacher department_id) ⟨[], [], []⟩

/-- C7 counterexample: the class-teacher endpoint has no year gate: on a
Year-2 class whose year's offerings include an active PE subject of the same
department, its PE bucket is non-empty (the query feeds it exactly the
class-year's offered rows). -/
theorem teacher_pe_year2_counterexample :
    (categorizeElectivesTeacher 1 [⟨7, 1, [], some ⟨7, "x", "pe"⟩⟩]).pe =
      [⟨7, "x", "pe"⟩] := by decide

/-- For a Year-2 query the student-facing step never touches the PE bucket:
its PE branch is gated on year 3 or 4. -/
theorem categorizeStep_pe_year2 (department_id : Nat) (buckets : ElectiveBuckets)
    (o : OfferedRow) : (categorizeStep 2 department_id buckets o).pe = buckets.pe := by
  rcases hsub : o.subject with _ | subject
  · simp [categorizeStep, hsub]
  · simp [categorizeStep, hsub, apply_ite ElectiveBuckets.pe]

/-- Anything the student-facing step adds to the PE bucket comes from the
current row, with a matching department. -/
theorem categorizeStep_pe_mem (year department_id : Nat) (buckets : ElectiveBuckets)
    (o : OfferedRow) (x : SubjectInfo)
    (hx : x ∈ (categorizeStep year department_id buckets o).pe) :
    x ∈ buckets.pe ∨ (o.department_id = department_id ∧ o.subject = some x) := by
  rcases hsub : o.subject with _ | subject
  · simp only [categorizeStep, hsub] at hx
    exact Or.inl hx
  · simp only [categorizeStep, hsub] at hx
    split at hx
    · exact Or.inl (by simpa using hx)
    · split at hx
      · exact Or.inl (by simpa using hx)
      · split at hx
        · split at hx
          · rename_i hdept
            rcases (by simpa using hx : x ∈ buckets.pe ∨ x = subject) with h | h
            · exact Or.inl h
            · exact Or.inr ⟨by simpa using hdept, by rw [h]⟩
          · exact Or.inl hx
        · exact Or.inl hx

/-- Anything the class-teacher step adds to the PE bucket comes from the
current row, with a matching department. -/
theorem categorizeStepTeacher_pe_mem (department_id : Nat) (buckets : ElectiveBuckets)
    (o : OfferedRow) (x : SubjectInfo)
    (hx : x ∈ (categorizeStepTeacher department_id buckets o).pe) :
    x ∈ buckets.pe ∨ (o.department_id = department_id ∧ o.subject = some x) := by
  rcases hsub : o.subject with _ | subject
  · simp only [categorizeStepTeacher, hsub] at hx
    exact Or.inl hx
  · simp only [categorizeStepTeacher, hsub] at hx
    split at hx
    · exact Or.inl (by simpa using hx)
    · split at hx
      · exact Or.inl (by simpa using hx)
      · split at hx
        · split at hx
          · rename_i hdept
            rcases (by simpa using hx : x ∈ buckets.pe ∨ x = subject) with h | h
            · exact Or.inl h
            · exact Or.inr ⟨by simpa using hdept, by rw [h]⟩
          · exact Or.inl hx
        · exact Or.inl hx

theorem categorizeElectives_foldl_pe_year2 (department_id : Nat)
    (offered : List OfferedRow) :
    ∀ init, (offered.foldl (categorizeStep 2 department_id) init).pe = init.pe := by
  induction offered with
  | nil => intro init; rfl
  | cons o t ih =>
    intro init
    rw [List.foldl_cons, ih, categorizeStep_pe_year2]

theorem foldl_pe_mem_aux (department_id : Nat)
    (step : ElectiveBuckets → OfferedRow → ElectiveBuckets)
    (hstep : ∀ b o x, x ∈ (step b o).pe →
      x ∈ b.pe ∨ (o.department_id = department_id ∧ o.subject = some x))
    (offered : List OfferedRow) :
    ∀ init x, x ∈ (offered.foldl step init).pe →
      x ∈ init.pe ∨ ∃ o ∈ offered, o.department_id = department_id ∧ o.subject = some x := by
  induction offered with
  | nil => intro init x hx; exact Or.inl hx
  | cons o t ih =>
    intro init x hx
    rcases ih (step init o) x hx with h | ⟨o', ho', hd, hs⟩
    · rcases hstep init o x h with h' | h'
      · exact Or.inl h'
      · exact Or.inr ⟨o, List.mem_cons_self _ _, h'⟩
    · exact Or.inr ⟨o', List.mem_cons_of_mem _ ho', hd, hs⟩

/-- C7 amended: the student-facing endpoint returns an empty PE bucket for a
Year-2 class regardless of the offered rows; in both endpoints every
PE-bucket subject comes from an offered row of the querying student's own
department; but the class-teacher endpoint applies no year gate, so its
Year-2 PE bucket need not be empty (see the counterexample). -/
theorem electives_pe_amended (year department_id : Nat) (offered : List OfferedRow) :
    (categorizeElectives 2 department_id offered).pe = [] ∧
    (∀ x ∈ (categorizeElectives year department_id offered).pe,
      ∃ o ∈ offered, o.department_id = department_id ∧ o.subject = some x) ∧
    (∀ x ∈ (categorizeElectivesTeacher department_id offered).pe,
      ∃ o ∈ offered, o.department_id = department_id ∧ o.subject = some x) := by
  refine ⟨?_, ?_, ?_⟩
  · rw [categorizeElectives, categorizeElectives_foldl_pe_year2]
  · intro x hx
    rcases foldl_pe_mem_aux department_id _
        (categorizeStep_pe_mem year department_id) offered ⟨[], [], []⟩ x hx with h | h
    · simp at h
    · exact h
  · intro x hx
    rcases foldl_pe_mem_aux department_id _
        (categorizeStepTeacher_pe_mem department_id) offered ⟨[], [], []⟩ x hx with h | h
    · simp at h
    · exact h

/-- Witness for `electives_pe_amended`: a PE subject placed in the
class-teacher endpoint's PE bucket traces back to a same-department offered
row. -/
theorem electives_pe_amended_witness :
    ∃ o ∈ [(⟨7, 2, [], some ⟨7, "x", "pe"⟩⟩ : OfferedRow)],
      o.department_id = 2 ∧ o.subject = some ⟨7, "x", "pe"⟩ :=
  (electives_pe_amended 3 2 [⟨7, 2, [], some ⟨7, "x", "pe"⟩⟩]).2.2
    ⟨7, "x", "pe"⟩ (by decide)

/-! ## Class-teacher student update (`PUT /student/:id` in
`src/unnamed/part_001`, lines 250–288) and the selection-pairing invariant. -/

/-- The `electiveSelections` request payload (`x || null` on the non-empty
string ids means a missing field becomes null). -/
structure ElectiveSelectionsInput where
  mdm_id : Option Nat
  oe_id : Option Nat
  pe_id : Option Nat
  mdm_faculty_id : Option Nat
  oe_faculty_id : Option Nat
  pe_faculty_id : Option Nat
  deriving DecidableEq, Repr

/-- The `selectionsData` write of `PUT /student/:id`: overwrite all six
columns of the existing row with the provided-or-null values, or insert a
fresh row with `selections_locked: false`.  No lock check, no
faculty-teaches-subject check. -/
def updateStudentSelections (existing : Option SelectionRow) (student_id : Nat)
    (input : ElectiveSelectionsInput) : SelectionRow :=
  match existing with
  | some e =>
    { e with
      mdm_id := input.mdm_id
      oe_id := input.oe_id
      pe_id := input.pe_id
      mdm_faculty_id := input.mdm_faculty_id
      oe_faculty_id := input.oe_faculty_id
      pe_faculty_id := input.pe_faculty_id }
  | none =>
    { student_id := student_id
      mdm_id := input.mdm_id
      oe_id := input.oe_id
      pe_id := input.pe_id
      mdm_faculty_id := input.mdm_faculty_id
      oe_faculty_id := input.oe_faculty_id
      pe_faculty_id := input.pe_faculty_id
      selections_locked := false }

/-- The spec's pairing-and-validity condition for one category's column pair:
a non-null subject id needs a non-null faculty id with a matching
`faculty_subjects` or `department_offered_subjects` entry. -/
def pairValid (facultySubjects : List FacultySubjectRow) (offered : List OfferedRow)
    (subjOpt facOpt : Option Nat) : Bool :=
  match subjOpt with
  | none => true
  | some subj =>
    match facOpt with
    | none => false
    | some fac =>
      facultySubjects.any (fun row => row.subject_id == subj && row.faculty_id == fac) ||
        offered.any (fun o => o.subject_id == subj && o.faculty_ids.contains fac)

/-- The spec's invariant over a whole selection row. -/
def selectionInvariant (facultySubjects : List FacultySubjectRow)
    (offered : List OfferedRow) (r : SelectionRow) : Bool :=
  pairValid facultySubjects offered r.mdm_id r.mdm_faculty_id &&
  pairValid facultySubjects offered r.oe_id r.oe_faculty_id &&
  pairValid facultySubjects offered r.pe_id r.pe_faculty_id

/-- C8 counterexample: the class-teacher update path writes a selection row
with `mdm_id` set and `mdm_faculty_id` null (and no matching assignment can
exist for it), so not every selection-column write preserves the
pairing-and-validity invariant. -/
theorem selection_invariant_counterexample :
    selectionInvariant [] []
      (updateStudentSelections none 1 ⟨some 7, none, none, none, none, none⟩) = false := by
  decide

/-- C8 amended: the `POST /select-elective` path does preserve the invariant —
whenever its checks pass (lock clear and the `faculty_subjects` lookup yields
exactly one linking row, as its `.maybeSingle()` requires), the row it writes
(update or insert) satisfies the pairing-and-validity invariant, assuming the
previous row did — while the `PUT /student/:id` path does not validate (see
the counterexample). -/
theorem select_elective_preserves_invariant (selections : List SelectionRow)
    (facultySubjects : List FacultySubjectRow) (offered : List OfferedRow)
    (student_id subject_id faculty_id : Nat) (ty : String)
    (hTy : ty = "MDM" ∨ ty = "OE" ∨ ty = "PE") :
    (∀ e fs0, maybeSingle selections (fun sel => sel.student_id == student_id) =
        .ok (some e) →
      e.selections_locked = false →
      (facultySubjects.filter fun fs =>
        fs.subject_id == subject_id && fs.faculty_id == faculty_id) = [fs0] →
      selectionInvariant facultySubjects offered e = true →
      selectElective selections facultySubjects student_id subject_id faculty_id ty =
        .updated (applyCategoryUpdate e ty subject_id faculty_id) ∧
      selectionInvariant facultySubjects offered
        (applyCategoryUpdate e ty subject_id faculty_id) = true) ∧
    (∀ fs0, maybeSingle selections (fun sel => sel.student_id == student_id) =
        .ok none →
      (facultySubjects.filter fun fs =>
        fs.subject_id == subject_id && fs.faculty_id == faculty_id) = [fs0] →
      selectElective selections facultySubjects student_id subject_id faculty_id ty =
        .created (applyCategoryUpdate (blankSelection student_id) ty
          subject_id faculty_id) ∧
      selectionInvariant facultySubjects offered
        (applyCategoryUpdate (blankSelection student_id) ty
          subject_id faculty_id) = true) := by
  constructor
  · intro e fs0 hms hlock hfil hinv
    have hmemf : fs0 ∈ facultySubjects.filter fun fs =>
        fs.subject_id == subject_id && fs.faculty_id == faculty_id := by
      rw [hfil]; exact List.mem_singleton_self fs0
    rcases List.mem_filter.mp hmemf with ⟨hmem, hp⟩
    have hany : facultySubjects.any
        (fun row => row.subject_id == subject_id && row.faculty_id == faculty_id) = true :=
      List.any_eq_true.mpr ⟨fs0, hmem, hp⟩
    have hmsf := maybeSingle_filter_single _ _ fs0 hfil
    simp only [selectionInvariant, Bool.and_eq_true] at hinv
    have hnew : pairValid facultySubjects offered (some subject_id) (some faculty_id) =
        true := by
      simp [pairValid, hany]
    constructor
    · rcases hTy with rfl | rfl | rfl <;> simp [selectElective, hms, hlock, hmsf]
    · rcases hTy with rfl | rfl | rfl
      · simp only [selectionInvariant, applyCategoryUpdate, Bool.and_eq_true]
        exact ⟨⟨by simpa using hnew, hinv.1.2⟩, hinv.2⟩
      · simp only [selectionInvariant, applyCategoryUpdate, Bool.and_eq_true]
        exact ⟨⟨hinv.1.1, by simpa using hnew⟩, hinv.2⟩
      · simp only [selectionInvariant, applyCategoryUpdate, Bool.and_eq_true]
        exact ⟨hinv.1, by simpa using hnew⟩
  · intro fs0 hms hfil
    have hmemf : fs0 ∈ facultySubjects.filter fun fs =>
        fs.subject_id == subject_id && fs.faculty_id == faculty_id := by
      rw [hfil]; exact List.mem_singleton_self fs0
    rcases List.mem_filter.mp hmemf with ⟨hmem, hp⟩
    have hany : facultySubjects.any
        (fun row => row.subject_id == subject_id && row.faculty_id == faculty_id) = true :=
      List.any_eq_true.mpr ⟨fs0, hmem, hp⟩
    have hmsf := maybeSingle_filter_single _ _ fs0 hfil
    constructor
    · rcases hTy with rfl | rfl | rfl <;> simp [selectElective, hms, hmsf]
    · rcases hTy with rfl | rfl | rfl <;>
        simp [selectionInvariant, applyCategoryUpdate, blankSelection, pairValid, hany]

/-- Witness for `select_elective_preserves_invariant`: a fresh "MDM" insert
through select-elective satisfies the invariant. -/
theorem select_elective_preserves_invariant_witness :
    selectElective [] [⟨9, 5, 1, none⟩] 1 5 9 "MDM" =
      .created (applyCategoryUpdate (blankSelection 1) "MDM" 5 9) ∧
    selectionInvariant [⟨9, 5, 1, none⟩] []
      (applyCategoryUpdate (blankSelection 1) "MDM" 5 9) = true :=
  (select_elective_preserves_invariant [] [⟨9, 5, 1, none⟩] [] 1 5 9 "MDM"
    (Or.inl rfl)).2 ⟨9, 5, 1, none⟩ rfl (by decide)

/-- C10: the class-teacher update path overwrites the selection row with
exactly the provided values (missing categories become null); it succeeds
even on a locked row — the lock flag is neither checked nor cleared — and it
consults no `faculty_subjects` or offered data at all. -/
theorem update_student_selections_no_checks (e : SelectionRow) (student_id : Nat)
    (input : ElectiveSelectionsInput) (hlocked : e.selections_locked = true) :
    updateStudentSelections (some e) student_id input =
      { student_id := e.student_id
        mdm_id := input.mdm_id
        oe_id := input.oe_id
        pe_id := input.pe_id
        mdm_faculty_id := input.mdm_faculty_id
        oe_faculty_id := input.oe_faculty_id
        pe_faculty_id := input.pe_faculty_id
        selections_locked := true } ∧
    updateStudentSelections none student_id input =
      { student_id := student_id
        mdm_id := input.mdm_id
        oe_id := input.oe_id
        pe_id := input.pe_id
        mdm_faculty_id := input.mdm_faculty_id
        oe_faculty_id := input.oe_faculty_id
        pe_faculty_id := input.pe_faculty_id
        selections_locked := false } := by
  constructor
  · obtain ⟨s0, a1, a2, a3, a4, a5, a6, lk⟩ := e
    simp only at hlocked
    subst hlocked
    rfl
  · rfl

/-- Witness for `update_student_selections_no_checks` on a locked row with a
dangling `mdm_id` and no faculty. -/
theorem update_student_selections_no_checks_witness :
    updateStudentSelections (some ⟨1, none, none, none, none, none, none, true⟩) 1
        ⟨some 7, none, none, none, none, none⟩ =
      { student_id := 1
        mdm_id := some 7
        oe_id := none
        pe_id := none
        mdm_faculty_id := none
        oe_faculty_id := none
        pe_faculty_id := none
        selections_locked := true } ∧
    updateStudentSelections none 1 ⟨some 7, none, none, none, none, none⟩ =
      { student_id := 1
        mdm_id := some 7
        oe_id := none
        pe_id := none
        mdm_faculty_id := none
        oe_faculty_id := none
        pe_faculty_id := none
        selections_locked := false } :=
  update_student_selections_no_checks ⟨1, none, none, none, none, none, none, true⟩ 1
    ⟨some 7, none, none, none, none, none⟩ rfl

end Rivoox
